import Mathlib

/-!
Verification of the adronaut strategy-pipeline core against its specification.

The Python sources under `service/` are shallowly embedded below:
pure functions become Lean functions, Python dicts become structures or
association lists, machine floats on the decimal-string inputs handled by
these claims are modeled exactly as rationals (`ℚ`), and fallible code
returns `Option`.  Python string primitives (`strip`, `lower`, `float`,
`"%.1f"` formatting, `str.__contains__`) are modeled for the ASCII inputs
the pipeline manipulates.
-/

/-! ### Python string primitives -/

/-- Python whitespace characters recognised by `str.strip()` (ASCII range). -/
def pyWsChar (c : Char) : Bool :=
  c = ' ' || c = '\t' || c = '\n' || c = '\r' || c = '\x0b' || c = '\x0c'

/-- `str.strip()` on a character list. -/
def pyStripList (l : List Char) : List Char :=
  ((l.dropWhile pyWsChar).reverse.dropWhile pyWsChar).reverse

/-- Python `str.strip()`. -/
def pyStrip (s : String) : String :=
  ⟨pyStripList s.toList⟩

/-- Python `str.lower()` (ASCII). -/
def pyLower (s : String) : String :=
  ⟨s.toList.map Char.toLower⟩

/-- Python `needle in haystack` for strings (substring containment). -/
def containsSubstr (needle haystack : String) : Bool :=
  decide (needle.toList <:+: haystack.toList)

/-! ### Exact decimal arithmetic

Python floats appear in this pipeline only as values parsed from decimal
strings, scaled by the decimal literal `0.8`, summed, compared against
integer thresholds, and formatted back with one decimal place.  On that
fragment the arithmetic is exact, so floats are modeled by `Q`, an
unnormalized rational (`num / den`) whose operations are plain integer
arithmetic and therefore evaluate inside the kernel.  `Q.val` maps a `Q`
into `ℚ` for symbolic reasoning; every `Q` built below has a positive
denominator. -/

/-- An unnormalized rational number `num / den`. -/
structure Q where
  num : ℤ
  den : ℕ
deriving DecidableEq, Repr

/-- Embed an integer. -/
def Q.ofInt (n : ℤ) : Q := ⟨n, 1⟩

/-- Zero (`total_shift = 0.0`). -/
def Q.zero : Q := ⟨0, 1⟩

/-- Addition. -/
def Q.add (a b : Q) : Q := ⟨a.num * b.den + b.num * a.den, a.den * b.den⟩

/-- Negation. -/
def Q.neg (a : Q) : Q := ⟨-a.num, a.den⟩

/-- Absolute value (Python `abs`). -/
def Q.qAbs (a : Q) : Q := ⟨|a.num|, a.den⟩

/-- Multiplication. -/
def Q.mul (a b : Q) : Q := ⟨a.num * b.num, a.den * b.den⟩

/-- Division by ten (used for fractional digits). -/
def Q.divTen (a : Q) : Q := ⟨a.num, a.den * 10⟩

/-- Strict comparison `a < b` (valid for positive denominators). -/
def Q.ltB (a b : Q) : Bool := a.num * b.den < b.num * a.den

/-- Comparison `a ≤ b` (valid for positive denominators). -/
def Q.leB (a b : Q) : Bool := a.num * b.den ≤ b.num * a.den

/-- The rational value of a `Q`. -/
def Q.val (a : Q) : ℚ := (a.num : ℚ) / (a.den : ℚ)

/-- Floor of a `Q` (valid for positive denominators). -/
def Q.floorI (a : Q) : ℤ := Int.fdiv a.num a.den

/-- Numeric value of a decimal digit character. -/
def digitVal (c : Char) : ℕ :=
  c.toNat - 48

/-- Value of a list of decimal digit characters (most significant first). -/
def digitsValN (l : List Char) : ℕ :=
  l.foldl (fun a c => 10 * a + digitVal c) 0

/-- Value of the fractional digits of a decimal literal. -/
def fracValQ (l : List Char) : Q :=
  l.foldr (fun c a => Q.divTen (Q.add (Q.ofInt (digitVal c)) a)) Q.zero

/-- Python `float()` on an unsigned literal over the alphabet `[0-9.]`:
`D+`, `D+.D*`, `.D+` and `D+.D+` parse; everything else raises `ValueError`
(modeled as `none`). -/
def parseUnsignedDecimal (l : List Char) : Option Q :=
  let ip := l.takeWhile Char.isDigit
  let rest := l.dropWhile Char.isDigit
  match rest with
  | [] => if ip = [] then none else some (Q.ofInt (digitsValN ip))
  | '.' :: fr =>
    let fd := fr.takeWhile Char.isDigit
    let rest2 := fr.dropWhile Char.isDigit
    if rest2 = [] ∧ (ip ≠ [] ∨ fd ≠ []) then
      some (Q.add (Q.ofInt (digitsValN ip)) (fracValQ fd))
    else none
  | _ => none

/-- Python `float()` on a string over the alphabet `[0-9.+-]`
(the alphabet left by `re.sub(r'[^\\d.+-]', '', value)`). -/
def pyFloatQ (l : List Char) : Option Q :=
  match l with
  | '+' :: t => parseUnsignedDecimal t
  | '-' :: t => (parseUnsignedDecimal t).map Q.neg
  | _ => parseUnsignedDecimal l

/-- The character class `[\\d.+-]` kept by the cleaning regex. -/
def keepNumChar (c : Char) : Bool :=
  c.isDigit || c = '.' || c = '+' || c = '-'

/-- `re.sub(r'[^\\d.+-]', '', value)`: keep only digits, `.`, `+`, `-`. -/
def cleanNumChars (s : String) : List Char :=
  s.toList.filter keepNumChar

/-- Round-half-to-even to the nearest integer (the rounding used by
Python's fixed-point float formatting, exact on this decimal fragment). -/
def roundHalfEven (q : Q) : ℤ :=
  let f := q.floorI
  let rnum := q.num - f * q.den
  if 2 * rnum < (q.den : ℤ) then f
  else if (q.den : ℤ) < 2 * rnum then f + 1
  else if f % 2 = 0 then f else f + 1

/-- Decimal digit character for `n < 10`. -/
def digitChar (n : ℕ) : Char :=
  Char.ofNat (n + 48)

/-- Digits of `n` with explicit fuel, so that the kernel can evaluate it
(the fuel `n + 1` always suffices since a number shrinks under `/ 10`). -/
def natDigitsAux : ℕ → ℕ → List Char
  | 0, _ => []
  | fuel + 1, n =>
    if n < 10 then [digitChar n]
    else natDigitsAux fuel (n / 10) ++ [digitChar (n % 10)]

/-- Decimal digit characters of a natural number, as produced by `str(n)`. -/
def natDigits (n : ℕ) : List Char :=
  natDigitsAux (n + 1) n

/-- Python `f"{q:.1f}"`: one decimal place, round-half-even, with the sign
taken from the (possibly negative-zero) value. -/
def fmt1 (q : Q) : String :=
  let n := roundHalfEven (Q.mul (Q.ofInt 10) q)
  let m := n.natAbs
  (if n < 0 ∨ (n = 0 ∧ Q.ltB q Q.zero) then "-" else "")
    ++ ⟨natDigits (m / 10)⟩ ++ "." ++ ⟨natDigits (m % 10)⟩

/-- Python `int()` on a rational: truncation toward zero. -/
def pyTrunc (q : ℚ) : ℤ :=
  if q < 0 then -⌊-q⌋ else ⌊q⌋

/-! ### `insights_selector.py` -/

/-- The `expected_effect` sub-dictionary of an insight.  Missing keys
default to the empty string, matching `dict.get(key)` falsiness. -/
structure ExpectedEffect where
  direction : String := ""
  metric : String := ""
  magnitude : String := ""
deriving Repr, DecidableEq

/-- An insight candidate dictionary, restricted to the fields read by the
scoring rubric.  Absent keys are modeled by their falsy defaults. -/
structure Insight where
  evidence_refs : List String := []
  data_support : String := ""
  expected_effect : ExpectedEffect := {}
  primary_lever : String := ""
  proposed_action : String := ""
deriving Repr, DecidableEq

/-- `learn_test_keywords` from `score_insight`. -/
def learn_test_keywords : List String :=
  ["pilot", "test", "experiment", "trial", "a/b", "validate"]

/-- The five allowed values of `primary_lever`. -/
def allowedLevers : List String :=
  ["audience", "creative", "budget", "bidding", "funnel"]

/-- `score_insight` (insights_selector.py): deterministic scoring rubric,
accumulating a raw score and rescaling it to 0–100 with
`int(min(max(score * 12.5, 0), 100))`. -/
def score_insight (insight : Insight) : ℤ :=
  let score : ℤ := 0
  let score := if insight.evidence_refs ≠ [] then score + 2 else score
  let score :=
    if insight.data_support = "strong" then score + 2
    else if insight.data_support = "moderate" then score + 1
    else score
  let score :=
    if insight.expected_effect.direction ≠ "" ∧ insight.expected_effect.magnitude ≠ "" then
      score + 1
    else score
  let score := if insight.primary_lever ∈ allowedLevers then score + 1 else score
  let score :=
    if insight.data_support = "weak" ∧
        ¬ learn_test_keywords.any (fun kw => containsSubstr kw (pyLower insight.proposed_action)) then
      score - 1
    else score
  pyTrunc (min (max ((score : ℚ) * (25 / 2)) 0) 100)

/-- An insight as returned by `select_top_insights`: the candidate
dictionary with `impact_rank` and `impact_score` added. -/
structure RankedInsight where
  insight : Insight
  impact_rank : ℕ
  impact_score : ℤ
deriving Repr, DecidableEq

/-- The comparison used by `scored.sort(key=lambda x: (-x[0], x[1]))` on
`(score, original_index, insight)` triples: descending score, ascending
original index. -/
def selLe (a b : ℤ × ℕ × Insight) : Prop :=
  b.1 < a.1 ∨ (a.1 = b.1 ∧ a.2.1 ≤ b.2.1)

instance : DecidableRel selLe := fun a b =>
  inferInstanceAs (Decidable (b.1 < a.1 ∨ (a.1 = b.1 ∧ a.2.1 ≤ b.2.1)))

instance : IsTotal (ℤ × ℕ × Insight) selLe :=
  ⟨fun a b => by unfold selLe; omega⟩

instance : IsTrans (ℤ × ℕ × Insight) selLe :=
  ⟨fun a b c hab hbc => by unfold selLe at hab hbc ⊢; omega⟩

/-- The scoring loop of `select_top_insights`: the list of
`(score, original_index, insight)` triples. -/
def scoredOf (candidates : List Insight) : List (ℤ × ℕ × Insight) :=
  candidates.enum.map (fun p => (score_insight p.2, p.1, p.2))

/-- The ranking loop body of `select_top_insights`: position `p.1` in the
truncated sorted list becomes `impact_rank = p.1 + 1`, and the stored score
becomes `impact_score`. -/
def rankTriple (p : ℕ × (ℤ × ℕ × Insight)) : RankedInsight :=
  { insight := p.2.2.2, impact_rank := p.1 + 1, impact_score := p.2.1 }

/-- `select_top_insights` (insights_selector.py): score every candidate,
sort `(score, original_index, insight)` triples ascending by
`(-score, original_index)` (Python's stable sort; the key is injective on
the distinct indices, so any correct sort agrees), and rank the first `k`. -/
def select_top_insights (candidates : List Insight) (k : ℕ) : List RankedInsight :=
  if candidates = [] then []
  else ((List.insertionSort selLe (scoredOf candidates)).take k).enum.map rankTriple

/-! ### Theorems for C1 and C2 -/

/-- The raw score as described by the specification's rubric: an
independent sum of the individual rule contributions. -/
def rubricRaw (i : Insight) : ℤ :=
  (if i.evidence_refs ≠ [] then 2 else 0)
    + (if i.data_support = "strong" then 2 else if i.data_support = "moderate" then 1 else 0)
    + (if i.expected_effect.direction ≠ "" ∧ i.expected_effect.magnitude ≠ "" then 1 else 0)
    + (if i.primary_lever ∈ allowedLevers then 1 else 0)
    - (if i.data_support = "weak" ∧
          ¬ learn_test_keywords.any (fun kw => containsSubstr kw (pyLower i.proposed_action)) then
        1 else 0)

/-- C1: for every insight dictionary, `score_insight` returns the integer
clamp of `raw × 12.5` to `[0, 100]`, where `raw` is the sum of the rubric
contributions: +2 for non-empty `evidence_refs`; +2 for strong / +1 for
moderate `data_support`; +1 when `expected_effect` has both a direction and
a magnitude; +1 when `primary_lever` is one of the five allowed values; and
−1 when `data_support` is weak and `proposed_action` contains no learning
keyword. -/
theorem score_insight_eq_rubric_clamp (i : Insight) :
    score_insight i = ⌊min (max ((rubricRaw i : ℚ) * (25 / 2)) 0) 100⌋ := by
  have harg : (0 : ℚ) ≤ min (max ((rubricRaw i : ℚ) * (25 / 2)) 0) 100 := by
    apply le_min
    · exact le_max_right _ _
    · norm_num
  have hraw : score_insight i = pyTrunc (min (max ((rubricRaw i : ℚ) * (25 / 2)) 0) 100) := by
    unfold score_insight rubricRaw
    split_ifs <;> norm_num
  rw [hraw, pyTrunc, if_neg (by exact not_lt.mpr harg)]

/-- C2: `select_top_insights` returns the first `k` entries of the
candidate list sorted by `(-impact_score, original_index)` — descending
score with the original submission order as tiebreak — assigning
`impact_rank` 1..k in that order, and re-running the selection yields the
identical result. -/
theorem select_top_insights_spec (c : List Insight) (k : ℕ) :
    (∃ s : List (ℤ × ℕ × Insight),
        s.Perm (scoredOf c) ∧
        List.Sorted selLe s ∧
        select_top_insights c k = (s.take k).enum.map rankTriple) ∧
      select_top_insights c k = select_top_insights c k := by
  refine ⟨?_, rfl⟩
  by_cases hc : c = []
  · subst hc
    refine ⟨[], by simp [scoredOf], List.sorted_nil, ?_⟩
    simp [select_top_insights]
  · exact ⟨List.insertionSort selLe (scoredOf c),
      List.perm_insertionSort selLe _, List.sorted_insertionSort selLe _, by
        simp only [select_top_insights, if_neg hc]⟩

/-! ### `heuristic_filters.py` -/

/-- A value of the `channel_breakdown` dictionary: a string, or any
non-string value (skipped by the `isinstance(value, str)` guards). -/
inductive CBVal where
  | vstr (s : String)
  | nonstr
deriving DecidableEq, Repr

/-- `budget_allocation` sub-dictionary (missing key ≍ empty dict). -/
structure BudgetAllocation where
  channel_breakdown : List (String × CBVal) := []
deriving DecidableEq, Repr

/-- `targeting_criteria` of a segment; `criteria.get('location', '')`
defaults an absent key to the empty string. -/
structure TargetingCriteria where
  location : String := ""
  age : String := ""
deriving DecidableEq, Repr

/-- An audience segment. -/
structure Segment where
  targeting_criteria : TargetingCriteria := {}
deriving DecidableEq, Repr

/-- `audience_targeting` sub-dictionary. -/
structure AudienceTargeting where
  segments : List Segment := []
deriving DecidableEq, Repr

/-- `messaging_strategy` sub-dictionary. -/
structure MessagingStrategy where
  key_themes : List String := []
deriving DecidableEq, Repr

/-- A strategy patch, restricted to the keys read by the heuristic
filters.  Missing keys are modeled by the empty-container defaults that
`patch.get(key, {})` produces. -/
structure Patch where
  budget_allocation : BudgetAllocation := {}
  audience_targeting : AudienceTargeting := {}
  messaging_strategy : MessagingStrategy := {}
deriving DecidableEq, Repr

/-- Does the cleaned numeric string start with an explicit sign
(`cleaned.startswith(('+', '-'))`)? -/
def headIsSign (l : List Char) : Bool :=
  match l with
  | c :: _ => c = '+' || c = '-'
  | [] => false

/-- The contribution of one `channel_breakdown` value to `total_shift`:
strings are cleaned and parsed, deltas (leading sign) contribute their
absolute value, bare percentages contribute as-is, and unparsable or
non-string values are skipped (`none`). -/
def entryShiftQ (v : CBVal) : Option Q :=
  match v with
  | .vstr value =>
    let cleaned := cleanNumChars value
    if cleaned ≠ [] then
      match pyFloatQ cleaned with
      | some q => some (if headIsSign cleaned then q.qAbs else q)
      | none => none
    else none
  | .nonstr => none

/-- The `total_shift` accumulation loop of `check_budget_sanity`. -/
def budget_total_shift (channel_breakdown : List (String × CBVal)) : Q :=
  channel_breakdown.foldl
    (fun acc e =>
      match entryShiftQ e.2 with
      | some shift => acc.add shift
      | none => acc)
    Q.zero

/-- `HeuristicFilters.check_budget_sanity`: flag when the summed absolute
percentage shift exceeds 25. -/
def check_budget_sanity (patch : Patch) : List String :=
  let channel_breakdown := patch.budget_allocation.channel_breakdown
  if channel_breakdown = [] then []
  else
    let total_shift := budget_total_shift channel_breakdown
    if Q.ltB (Q.ofInt 25) total_shift then
      ["budget_shift_exceeds_25_percent: total_shift=" ++ fmt1 total_shift ++ "%"]
    else []

/-- The segment loop of `check_audience_sanity`, carrying the set of
`(location, age)` combinations seen so far. -/
def audienceScan : List (ℕ × Segment) → List (String × String) → List String
  | [], _ => []
  | (i, segment) :: rest, seen =>
    let location := pyLower (pyStrip segment.targeting_criteria.location)
    let age := pyLower (pyStrip segment.targeting_criteria.age)
    if location = "" ∨ age = "" then audienceScan rest seen
    else if (location, age) ∈ seen then
      ("overlapping_segment: location='" ++ location ++ "', age='" ++ age
          ++ "' (segment_index=" ++ ⟨natDigits i⟩ ++ ")")
        :: audienceScan rest seen
    else audienceScan rest ((location, age) :: seen)

/-- `HeuristicFilters.check_audience_sanity`: flag duplicated
lower-cased, stripped `(location, age)` combinations. -/
def check_audience_sanity (patch : Patch) : List String :=
  let segments := patch.audience_targeting.segments
  if segments = [] then [] else audienceScan segments.enum []

/-- `HeuristicFilters.check_creative_sanity`: flag more than three themes
per segment. -/
def check_creative_sanity (patch : Patch) : List String :=
  let segment_count := patch.audience_targeting.segments.length
  let theme_count := patch.messaging_strategy.key_themes.length
  if segment_count = 0 then []
  else if theme_count > segment_count * 3 then
    ["excessive_creatives: " ++ ⟨natDigits theme_count⟩ ++ " themes for "
        ++ ⟨natDigits segment_count⟩ ++ " segments (max=" ++ ⟨natDigits (segment_count * 3)⟩ ++ ")"]
  else []

/-- The aggregate validation result dictionary of `validate_patch`. -/
structure ValidationResult where
  heuristic_flags : List String
  passed : Bool
  reasons : List String
  budget_flags : ℕ
  audience_flags : ℕ
  creative_flags : ℕ
deriving DecidableEq, Repr

/-- `flag.split(':')[0]`: the reason type before the first colon. -/
def splitColonHead (s : String) : String :=
  ⟨s.toList.takeWhile (fun c => c ≠ ':')⟩

/-- `HeuristicFilters.validate_patch`: run all three checks, aggregate
the flags, and report `passed = (no flags)` together with per-check flag
counts. -/
def validate_patch (patch : Patch) : ValidationResult :=
  let budget_flags := check_budget_sanity patch
  let audience_flags := check_audience_sanity patch
  let creative_flags := check_creative_sanity patch
  let all_flags := budget_flags ++ audience_flags ++ creative_flags
  { heuristic_flags := all_flags
    passed := all_flags.length == 0
    reasons := all_flags.map splitColonHead
    budget_flags := budget_flags.length
    audience_flags := audience_flags.length
    creative_flags := creative_flags.length }

/-- The per-value body of the budget downscoping loop: values containing
`%` whose cleaned form starts with a sign are scaled by `0.8` and
reformatted with one decimal; everything else is left in place.  The
boolean records whether `modified` was set. -/
def scaleChannelValue (v : CBVal) : CBVal × Bool :=
  match v with
  | .vstr value =>
    if containsSubstr "%" value then
      let cleaned := cleanNumChars value
      if headIsSign cleaned then
        match pyFloatQ cleaned with
        | some original =>
          let scaled := original.mul ⟨8, 10⟩
          (.vstr ((if Q.ltB Q.zero scaled then "+" else "") ++ fmt1 scaled ++ "%"), true)
        | none => (v, false)
      else (v, false)
    else (v, false)
  | .nonstr => (v, false)

/-- `HeuristicFilters.downscope_patch_if_needed` (value semantics of the
returned `(modified_patch, was_modified)` pair): scale budget deltas by
0.8 when budget flags exist, then trim `key_themes` to `3 × segments`
when creative flags exist. -/
def downscope_patch_if_needed (patch : Patch) (validation_result : ValidationResult) :
    Patch × Bool :=
  if validation_result.passed then (patch, false)
  else
    let budgetStep :=
      if validation_result.budget_flags > 0 then
        let channel_breakdown := patch.budget_allocation.channel_breakdown
        if channel_breakdown ≠ [] then
          let scaledEntries := channel_breakdown.map (fun e => (e.1, scaleChannelValue e.2))
          ({ patch with
              budget_allocation := { channel_breakdown := scaledEntries.map (fun e => (e.1, e.2.1)) } },
            scaledEntries.any (fun e => e.2.2))
        else (patch, false)
      else (patch, false)
    let patch1 := budgetStep.1
    let modified1 := budgetStep.2
    if validation_result.creative_flags > 0 then
      let key_themes := patch1.messaging_strategy.key_themes
      let segments := patch1.audience_targeting.segments
      if key_themes.length > segments.length * 3 then
        ({ patch1 with messaging_strategy := { key_themes := key_themes.take (segments.length * 3) } },
          true)
      else (patch1, modified1)
    else (patch1, modified1)

/-- The patch with two identical `{location: "us", age: "25-35"}`
segments from the specification's end-to-end scenario. -/
def dupSegPatch : Patch :=
  { audience_targeting :=
      { segments :=
          [{ targeting_criteria := { location := "us", age := "25-35" } },
            { targeting_criteria := { location := "us", age := "25-35" } }] } }

/-- C3: `validate_patch` passes exactly when the budget, audience and
creative checks produce no flags; and the patch with two identical
`(location "us", age "25-35")` segments yields `audience_flags ≥ 1` and
`passed = false`. -/
theorem validate_patch_passed_iff_no_flags :
    (∀ p : Patch,
        (validate_patch p).passed = true ↔
          check_budget_sanity p = [] ∧ check_audience_sanity p = [] ∧
            check_creative_sanity p = []) ∧
      1 ≤ (validate_patch dupSegPatch).audience_flags ∧
      (validate_patch dupSegPatch).passed = false := by
  refine ⟨fun p => ?_, by decide, by decide⟩
  simp only [validate_patch, beq_iff_eq, List.length_append, Nat.add_eq_zero,
    List.length_eq_zero]
  tauto

/-- C9: `validate_patch` is a pure function, so re-validating a patch it
passed yields `passed = true` again, with an empty flag list. -/
theorem validate_patch_idempotent (p : Patch) (h : (validate_patch p).passed = true) :
    (validate_patch p).passed = true ∧ (validate_patch p).heuristic_flags = [] := by
  refine ⟨h, ?_⟩
  have h2 := h
  simp only [validate_patch, beq_iff_eq, List.length_append, Nat.add_eq_zero,
    List.length_eq_zero] at h2
  simp [validate_patch, h2.1.1, h2.1.2, h2.2]

/-- Witness for C9: the empty patch passes validation, and re-validation
passes with no flags. -/
theorem validate_patch_idempotent_witness :
    (validate_patch {}).passed = true ∧
      ((validate_patch {}).passed = true ∧ (validate_patch {}).heuristic_flags = []) :=
  ⟨by decide, validate_patch_idempotent {} (by decide)⟩

/-- The `{"a": "+30%", "b": "-30%"}` channel breakdown from the
specification's end-to-end scenario. -/
def exBudgetPatch : Patch :=
  { budget_allocation :=
      { channel_breakdown := [("a", CBVal.vstr "+30%"), ("b", CBVal.vstr "-30%")] } }

/-- A budget-only patch with twelve `"+2.6%"` decimal deltas: its total
shift is 31.2 ≤ 31.25, yet downscoping rounds each delta up and the patch
re-fails (see `downscope_example_does_not_repass`). -/
def exBudgetDecimal : Patch :=
  { budget_allocation :=
      { channel_breakdown :=
          [("c1", CBVal.vstr "+2.6%"), ("c2", CBVal.vstr "+2.6%"),
           ("c3", CBVal.vstr "+2.6%"), ("c4", CBVal.vstr "+2.6%"),
           ("c5", CBVal.vstr "+2.6%"), ("c6", CBVal.vstr "+2.6%"),
           ("c7", CBVal.vstr "+2.6%"), ("c8", CBVal.vstr "+2.6%"),
           ("c9", CBVal.vstr "+2.6%"), ("c10", CBVal.vstr "+2.6%"),
           ("c11", CBVal.vstr "+2.6%"), ("c12", CBVal.vstr "+2.6%")] } }

/-- A budget-only patch with the single unsigned delta `"26%"`: it is
flagged (26 > 25, and 26 ≤ 31.25), but `_downscope_patch_if_needed` only
rescales values whose cleaned form starts with `+` or `-`, so the patch is
left unchanged and re-fails. -/
def exBudgetUnsigned : Patch :=
  { budget_allocation := { channel_breakdown := [("a", CBVal.vstr "26%")] } }

/-- Counterexample for C4, in three parts delimiting the amended claim.
(1) The claim's own `{"a": "+30%", "b": "-30%"}` patch is flagged (total
shift 60 > 25) and downscoped to `+24.0% / -24.0%`, but re-validation
still fails (48 > 25) — the claimed "and then re-passes validation" is
false at this input, so any true amendment needs a bound on the total
shift.  (2) The amendment's further restriction to *signed integer*
deltas is also forced: twelve `"+2.6%"` decimal deltas total 31.2 ≤ 31.25
with budget magnitude the only violation, yet `"%.1f"` formatting rounds
each scaled delta 2.08 up to `"+2.1%"`, the re-validated total is
25.2 > 25, and the patch re-fails.  (3) An unsigned `"26%"` delta is
counted in the total (26 ≤ 31.25, budget the only violation) but never
rescaled — downscoping requires a leading sign — so the patch comes back
unchanged (modified = false) and re-fails. -/
theorem downscope_example_does_not_repass :
    (1 ≤ (validate_patch exBudgetPatch).budget_flags ∧
      (validate_patch exBudgetPatch).audience_flags = 0 ∧
      (validate_patch exBudgetPatch).creative_flags = 0 ∧
      (downscope_patch_if_needed exBudgetPatch
            (validate_patch exBudgetPatch)).1.budget_allocation.channel_breakdown =
        [("a", CBVal.vstr "+24.0%"), ("b", CBVal.vstr "-24.0%")] ∧
      (downscope_patch_if_needed exBudgetPatch (validate_patch exBudgetPatch)).2 = true ∧
      (validate_patch
          (downscope_patch_if_needed exBudgetPatch (validate_patch exBudgetPatch)).1).passed =
        false) ∧
    ((validate_patch exBudgetDecimal).budget_flags = 1 ∧
      (validate_patch exBudgetDecimal).audience_flags = 0 ∧
      (validate_patch exBudgetDecimal).creative_flags = 0 ∧
      Q.leB (budget_total_shift exBudgetDecimal.budget_allocation.channel_breakdown)
        ⟨125, 4⟩ = true ∧
      (downscope_patch_if_needed exBudgetDecimal
            (validate_patch exBudgetDecimal)).1.budget_allocation.channel_breakdown.map
          (fun e => e.2) =
        List.replicate 12 (CBVal.vstr "+2.1%") ∧
      (validate_patch
          (downscope_patch_if_needed exBudgetDecimal
            (validate_patch exBudgetDecimal)).1).passed = false) ∧
    ((validate_patch exBudgetUnsigned).budget_flags = 1 ∧
      (validate_patch exBudgetUnsigned).audience_flags = 0 ∧
      (validate_patch exBudgetUnsigned).creative_flags = 0 ∧
      Q.leB (budget_total_shift exBudgetUnsigned.budget_allocation.channel_breakdown)
        ⟨125, 4⟩ = true ∧
      (downscope_patch_if_needed exBudgetUnsigned (validate_patch exBudgetUnsigned)).1 =
        exBudgetUnsigned ∧
      (downscope_patch_if_needed exBudgetUnsigned (validate_patch exBudgetUnsigned)).2 =
        false ∧
      (validate_patch
          (downscope_patch_if_needed exBudgetUnsigned
            (validate_patch exBudgetUnsigned)).1).passed = false) := by
  refine ⟨by decide, by decide, by decide⟩

/-! ### Arithmetic transfer lemmas for `Q` -/

theorem Q.val_ofInt (n : ℤ) : (Q.ofInt n).val = (n : ℚ) := by
  simp [Q.ofInt, Q.val]

theorem Q.val_add (a b : Q) (ha : a.den ≠ 0) (hb : b.den ≠ 0) :
    (a.add b).val = a.val + b.val := by
  have ha' : (a.den : ℚ) ≠ 0 := Nat.cast_ne_zero.mpr ha
  have hb' : (b.den : ℚ) ≠ 0 := Nat.cast_ne_zero.mpr hb
  simp only [Q.add, Q.val]
  push_cast
  field_simp

theorem Q.val_neg (a : Q) : a.neg.val = -a.val := by
  simp [Q.neg, Q.val, neg_div]

theorem Q.val_qAbs (a : Q) : a.qAbs.val = |a.val| := by
  simp only [Q.qAbs, Q.val, abs_div]
  rw [abs_of_nonneg (by positivity : (0:ℚ) ≤ (a.den : ℚ))]
  push_cast
  ring_nf

theorem Q.val_mul (a b : Q) : (a.mul b).val = a.val * b.val := by
  simp only [Q.mul, Q.val]
  push_cast
  rw [div_mul_div_comm]

theorem Q.val_divTen (a : Q) : a.divTen.val = a.val / 10 := by
  simp only [Q.divTen, Q.val]
  push_cast
  rw [div_div]

theorem Q.ltB_iff (a b : Q) (ha : a.den ≠ 0) (hb : b.den ≠ 0) :
    a.ltB b = true ↔ a.val < b.val := by
  have ha' : (0 : ℚ) < (a.den : ℚ) := by positivity
  have hb' : (0 : ℚ) < (b.den : ℚ) := by positivity
  rw [Q.ltB, decide_eq_true_eq, Q.val, Q.val, div_lt_div_iff ha' hb']
  constructor
  · intro h
    exact_mod_cast h
  · intro h
    exact_mod_cast h

theorem Q.leB_iff (a b : Q) (ha : a.den ≠ 0) (hb : b.den ≠ 0) :
    a.leB b = true ↔ a.val ≤ b.val := by
  have ha' : (0 : ℚ) < (a.den : ℚ) := by positivity
  have hb' : (0 : ℚ) < (b.den : ℚ) := by positivity
  rw [Q.leB, decide_eq_true_eq, Q.val, Q.val, div_le_div_iff ha' hb']
  constructor
  · intro h
    exact_mod_cast h
  · intro h
    exact_mod_cast h

/-! ### List and digit helper lemmas -/

theorem takeWhile_append_all {p : Char → Bool} (l1 l2 : List Char) (h : l1.all p = true) :
    (l1 ++ l2).takeWhile p = l1 ++ l2.takeWhile p := by
  induction l1 with
  | nil => simp
  | cons c t ih =>
    simp only [List.all_cons, Bool.and_eq_true] at h
    simp [List.takeWhile_cons, h.1, ih h.2]

theorem dropWhile_append_all {p : Char → Bool} (l1 l2 : List Char) (h : l1.all p = true) :
    (l1 ++ l2).dropWhile p = l2.dropWhile p := by
  induction l1 with
  | nil => simp
  | cons c t ih =>
    simp only [List.all_cons, Bool.and_eq_true] at h
    simp [List.dropWhile_cons, h.1, ih h.2]

theorem digitChar_isDigit {n : ℕ} (h : n < 10) : (digitChar n).isDigit = true := by
  interval_cases n <;> decide

theorem digitVal_digitChar {n : ℕ} (h : n < 10) : digitVal (digitChar n) = n := by
  interval_cases n <;> decide

theorem digitsValN_append_singleton (l : List Char) (c : Char) :
    digitsValN (l ++ [c]) = 10 * digitsValN l + digitVal c := by
  simp [digitsValN, List.foldl_append]

theorem natDigitsAux_spec :
    ∀ fuel, ∀ n < 10 ^ fuel,
      (natDigitsAux fuel n).all Char.isDigit = true ∧
        digitsValN (natDigitsAux fuel n) = n := by
  intro fuel
  induction fuel with
  | zero =>
    intro n hn
    interval_cases n
    exact ⟨rfl, rfl⟩
  | succ fuel ih =>
    intro n hn
    by_cases h10 : n < 10
    · constructor
      · simp [natDigitsAux, h10, digitChar_isDigit h10]
      · simp [natDigitsAux, h10, digitsValN, digitVal_digitChar h10]
    · have hdiv : n / 10 < 10 ^ fuel := by
        rw [Nat.div_lt_iff_lt_mul (by norm_num)]
        calc n < 10 ^ (fuel + 1) := hn
        _ = 10 ^ fuel * 10 := by ring
      obtain ⟨iha, ihv⟩ := ih (n / 10) hdiv
      constructor
      · simp [natDigitsAux, h10, List.all_append, iha,
          digitChar_isDigit (Nat.mod_lt n (by norm_num))]
      · rw [natDigitsAux, if_neg h10, digitsValN_append_singleton, ihv,
          digitVal_digitChar (Nat.mod_lt n (by norm_num)), Nat.div_add_mod]

theorem natDigits_all (n : ℕ) : (natDigits n).all Char.isDigit = true :=
  (natDigitsAux_spec (n + 1) n
    (lt_of_lt_of_le (Nat.lt_pow_self (by norm_num) n)
      (Nat.pow_le_pow_right (by norm_num) (Nat.le_succ n)))).1

theorem digitsValN_natDigits (n : ℕ) : digitsValN (natDigits n) = n :=
  (natDigitsAux_spec (n + 1) n
    (lt_of_lt_of_le (Nat.lt_pow_self (by norm_num) n)
      (Nat.pow_le_pow_right (by norm_num) (Nat.le_succ n)))).2

theorem natDigits_ne_nil (n : ℕ) : natDigits n ≠ [] := by
  unfold natDigits natDigitsAux
  by_cases h : n < 10 <;> simp [h]

/-! ### Parsing and formatting lemmas -/

theorem toList_append (s t : String) : (s ++ t).toList = s.toList ++ t.toList := by
  cases s
  cases t
  rfl

theorem parse_digits (ds : List Char) (hne : ds ≠ []) (hdig : ds.all Char.isDigit = true) :
    parseUnsignedDecimal ds = some (Q.ofInt (digitsValN ds)) := by
  have ht : ds.takeWhile Char.isDigit = ds := by
    have h := takeWhile_append_all ds [] hdig
    simpa using h
  have hd : ds.dropWhile Char.isDigit = [] := by
    have h := dropWhile_append_all ds [] hdig
    simpa using h
  unfold parseUnsignedDecimal
  simp [ht, hd, hne]

theorem parse_digits_dot_digit (ds1 : List Char) (d : Char) (h1 : ds1.all Char.isDigit = true)
    (hne : ds1 ≠ []) (hd : d.isDigit = true) :
    parseUnsignedDecimal (ds1 ++ '.' :: [d]) =
      some (Q.add (Q.ofInt (digitsValN ds1)) (fracValQ [d])) := by
  have ht : (ds1 ++ '.' :: [d]).takeWhile Char.isDigit = ds1 := by
    rw [takeWhile_append_all ds1 _ h1]
    simp [List.takeWhile_cons]
  have hdr : (ds1 ++ '.' :: [d]).dropWhile Char.isDigit = '.' :: [d] := by
    rw [dropWhile_append_all ds1 _ h1]
    simp [List.dropWhile_cons]
  unfold parseUnsignedDecimal
  simp [ht, hdr, List.takeWhile_cons, List.dropWhile_cons, hd, hne]

theorem fracValQ_single (d : Char) :
    (fracValQ [d]).val = (digitVal d : ℚ) / 10 ∧ (fracValQ [d]).den = 10 := by
  constructor
  · simp [fracValQ, Q.divTen, Q.add, Q.ofInt, Q.zero, Q.val]
  · rfl

theorem natDigits_lt_ten {n : ℕ} (h : n < 10) : natDigits n = [digitChar n] := by
  unfold natDigits natDigitsAux
  simp [h]

/-- A signed integer percentage string such as `"+30%"` or `"-30%"`. -/
def mkSigned (sgn : Bool) (ds : List Char) : String :=
  ⟨(if sgn then '+' else '-') :: ds ++ ['%']⟩

theorem clean_mkSigned (sgn : Bool) (ds : List Char) (hdig : ds.all Char.isDigit = true) :
    cleanNumChars (mkSigned sgn ds) = (if sgn then '+' else '-') :: ds := by
  unfold cleanNumChars mkSigned
  have hds : ds.filter keepNumChar = ds :=
    List.filter_eq_self.mpr (fun a ha => by
      have hda := List.all_eq_true.mp hdig a ha
      simp [keepNumChar, hda])
  have hpct : keepNumChar '%' = false := by decide
  cases sgn <;>
    simp [List.filter_cons, List.filter_append, hds, hpct,
      show keepNumChar '+' = true from by decide, show keepNumChar '-' = true from by decide]

theorem containsSubstr_pct (l1 l2 : List Char) :
    containsSubstr "%" ⟨l1 ++ '%' :: l2⟩ = true := by
  unfold containsSubstr
  apply decide_eq_true
  exact ⟨l1, l2, by simp⟩

theorem fmt1_tenths (m : ℤ) :
    (fmt1 ⟨m, 10⟩).toList =
      (if m < 0 then ['-'] else []) ++ natDigits (m.natAbs / 10)
        ++ '.' :: [digitChar (m.natAbs % 10)] := by
  have hr : roundHalfEven (Q.mul (Q.ofInt 10) ⟨m, 10⟩) = m := by
    show roundHalfEven ⟨10 * m, 1 * 10⟩ = m
    unfold roundHalfEven Q.floorI
    simp only [Nat.one_mul]
    have h1 : Int.fdiv (10 * m) ((10 : ℕ) : ℤ) = m := by
      rw [show (((10 : ℕ) : ℤ)) = (10 : ℤ) by norm_num, Int.mul_fdiv_cancel_left]
      norm_num
    rw [h1]
    have h2 : 10 * m - m * ((10 : ℕ) : ℤ) = 0 := by push_cast; ring
    rw [h2]
    norm_num
  have hlt : Q.ltB ⟨m, 10⟩ Q.zero = decide (m < 0) := by
    unfold Q.ltB Q.zero
    simp
  unfold fmt1
  rw [hr, hlt]
  have hfrac : natDigits (m.natAbs % 10) = [digitChar (m.natAbs % 10)] :=
    natDigits_lt_ten (Nat.mod_lt _ (by norm_num))
  have hminus : "-".toList = ['-'] := rfl
  have hdot : ".".toList = ['.'] := rfl
  have hemp : "".toList = [] := rfl
  have hmk : ∀ l : List Char, (String.mk l).toList = l := fun _ => rfl
  rcases lt_trichotomy m 0 with hm | hm | hm
  · simp [toList_append, hfrac, hm, hminus, hdot, hemp, hmk]
  · subst hm
    simp [toList_append, hfrac, hdot, hemp, hmk, natDigits_lt_ten]
  · simp [toList_append, hfrac, not_lt.mpr (le_of_lt hm), hm.ne.symm, hdot, hemp, hmk]

theorem entryShift_mkSigned (sgn : Bool) (ds : List Char) (hne : ds ≠ [])
    (hdig : ds.all Char.isDigit = true) :
    entryShiftQ (CBVal.vstr (mkSigned sgn ds)) = some (Q.ofInt (digitsValN ds)) := by
  simp only [entryShiftQ]
  rw [clean_mkSigned sgn ds hdig]
  cases sgn
  · simp [pyFloatQ, parse_digits ds hne hdig, headIsSign, Q.qAbs, Q.neg, Q.ofInt,
      abs_of_nonneg (Int.natCast_nonneg (digitsValN ds))]
  · simp [pyFloatQ, parse_digits ds hne hdig, headIsSign, Q.qAbs, Q.ofInt,
      abs_of_nonneg (Int.natCast_nonneg (digitsValN ds))]

/-- The string produced by downscoping the delta `±n%` (where `n` is the
parsed magnitude): `0.8 × n` formatted with one decimal and a `+` sign for
positive scaled values, a `-` sign (from float formatting) for negative
ones, and no sign at zero. -/
def scaledStr (sgn : Bool) (n : ℕ) : String :=
  ⟨(if 0 < n then (if sgn then ['+'] else ['-']) else []) ++ natDigits (8 * n / 10)
    ++ '.' :: [digitChar (8 * n % 10)] ++ ['%']⟩

theorem scale_mkSigned (sgn : Bool) (ds : List Char) (hne : ds ≠ [])
    (hdig : ds.all Char.isDigit = true) :
    scaleChannelValue (CBVal.vstr (mkSigned sgn ds)) =
      (CBVal.vstr (scaledStr sgn (digitsValN ds)), true) := by
  have hpct : containsSubstr "%" (mkSigned sgn ds) = true := by
    have h : mkSigned sgn ds = ⟨((if sgn then '+' else '-') :: ds) ++ '%' :: []⟩ := by
      unfold mkSigned
      simp
    rw [h]
    exact containsSubstr_pct _ _
  have htl : ∀ s t : String, s.toList = t.toList → s = t := by
    intro s t h
    cases s
    cases t
    exact congrArg String.mk (by simpa [String.toList] using h)
  simp only [scaleChannelValue]
  rw [hpct, if_pos rfl, clean_mkSigned sgn ds hdig]
  have hpd := parse_digits ds hne hdig
  generalize hn : digitsValN ds = n at hpd ⊢
  cases sgn
  · -- negative delta
    rw [show (if false = true then '+' else '-') = '-' from rfl]
    have hpf : pyFloatQ ('-' :: ds) = some (Q.neg (Q.ofInt n)) := by
      simp [pyFloatQ, hpd]
    rw [show headIsSign ('-' :: ds) = true from rfl]
    simp only [if_pos rfl, hpf]
    have hscaled : (Q.neg (Q.ofInt n)).mul ⟨8, 10⟩ = ⟨-(8 * n : ℕ), 10⟩ := by
      unfold Q.neg Q.ofInt Q.mul
      congr 1
      push_cast
      ring
    rw [hscaled]
    have hltB : Q.ltB Q.zero ⟨-(8 * n : ℕ), 10⟩ = false := by
      unfold Q.ltB Q.zero
      simp
    rw [hltB, if_pos trivial]
    have hfmt := fmt1_tenths (-(8 * n : ℕ))
    simp only [Prod.mk.injEq, CBVal.vstr.injEq]
    refine ⟨htl _ _ ?_, trivial⟩
    rw [show (if (false : Bool) = true then "+" else "") = "" from rfl]
    rw [toList_append, toList_append, hfmt]
    unfold scaledStr
    rcases Nat.eq_zero_or_pos n with h0 | hpos
    · subst h0
      norm_num
    · have hneg : (-(8 * n : ℕ) : ℤ) < 0 := by
        push_cast
        omega
      rw [if_pos hneg]
      have habs : ((-(8 * n : ℕ) : ℤ)).natAbs = 8 * n := by
        omega
      rw [habs]
      simp [hpos]
  · -- positive delta
    rw [show (if true = true then '+' else '-') = '+' from rfl]
    have hpf : pyFloatQ ('+' :: ds) = some (Q.ofInt n) := by
      simp [pyFloatQ, hpd]
    rw [show headIsSign ('+' :: ds) = true from rfl]
    simp only [if_pos rfl, hpf]
    have hscaled : (Q.ofInt n).mul ⟨8, 10⟩ = ⟨(8 * n : ℕ), 10⟩ := by
      unfold Q.ofInt Q.mul
      congr 1
      push_cast
      ring
    rw [hscaled]
    have hltB : Q.ltB Q.zero ⟨(8 * n : ℕ), 10⟩ = decide (0 < n) := by
      unfold Q.ltB Q.zero
      simp
    rw [hltB, if_pos trivial]
    have hfmt := fmt1_tenths ((8 * n : ℕ))
    simp only [Prod.mk.injEq, CBVal.vstr.injEq]
    refine ⟨htl _ _ ?_, trivial⟩
    unfold scaledStr
    rcases Nat.eq_zero_or_pos n with h0 | hpos
    · subst h0
      rw [show (decide (0 < 0) : Bool) = false from rfl]
      rw [show (if (false : Bool) = true then "+" else "") = "" from rfl]
      rw [toList_append, toList_append, hfmt]
      norm_num
    · rw [if_pos (decide_eq_true hpos)]
      rw [toList_append, toList_append, hfmt]
      have hnotneg : ¬ (((8 * n : ℕ) : ℤ) < 0) := by omega
      rw [if_neg hnotneg]
      have habs : (((8 * n : ℕ) : ℤ)).natAbs = 8 * n := by
        omega
      rw [habs]
      simp [hpos]

theorem keepNumChar_of_digit {c : Char} (h : c.isDigit = true) : keepNumChar c = true := by
  simp [keepNumChar, h]

theorem not_sign_of_digit {c : Char} (h : c.isDigit = true) : (c = '+' || c = '-') = false := by
  by_cases h1 : c = '+'
  · subst h1
    exact absurd h (by decide)
  · by_cases h2 : c = '-'
    · subst h2
      exact absurd h (by decide)
    · simp [h1, h2]

theorem clean_scaledStr (sgn : Bool) (n : ℕ) :
    cleanNumChars (scaledStr sgn n) =
      (if 0 < n then [if sgn then '+' else '-'] else []) ++ natDigits (8 * n / 10)
        ++ '.' :: [digitChar (8 * n % 10)] := by
  unfold cleanNumChars scaledStr
  have hds : (natDigits (8 * n / 10)).filter keepNumChar = natDigits (8 * n / 10) :=
    List.filter_eq_self.mpr (fun a ha =>
      keepNumChar_of_digit (List.all_eq_true.mp (natDigits_all _) a ha))
  have hdc : keepNumChar (digitChar (8 * n % 10)) = true :=
    keepNumChar_of_digit (digitChar_isDigit (Nat.mod_lt _ (by norm_num)))
  by_cases hn0 : 0 < n <;> cases sgn <;>
    simp [List.filter_append, List.filter_cons, hds, hdc, hn0,
      show keepNumChar '+' = true from by decide, show keepNumChar '-' = true from by decide,
      show keepNumChar '.' = true from by decide, show keepNumChar '%' = false from by decide]

theorem entryShift_scaledStr (sgn : Bool) (n : ℕ) :
    ∃ q, entryShiftQ (CBVal.vstr (scaledStr sgn n)) = some q ∧ q.den ≠ 0 ∧
      q.val = (8 * n : ℚ) / 10 := by
  have hd10all := natDigits_all (8 * n / 10)
  have hd10ne := natDigits_ne_nil (8 * n / 10)
  have hdigc : (digitChar (8 * n % 10)).isDigit = true :=
    digitChar_isDigit (Nat.mod_lt _ (by norm_num))
  have hparse := parse_digits_dot_digit (natDigits (8 * n / 10)) (digitChar (8 * n % 10))
    hd10all hd10ne hdigc
  set x := (Q.ofInt (digitsValN (natDigits (8 * n / 10)))).add (fracValQ [digitChar (8 * n % 10)])
    with hx
  have hvald : x.val = (8 * n : ℚ) / 10 := by
    rw [hx, Q.val_add _ _ (by simp [Q.ofInt]) (by rw [(fracValQ_single _).2]; norm_num),
      Q.val_ofInt, (fracValQ_single _).1, digitsValN_natDigits,
      digitVal_digitChar (Nat.mod_lt _ (by norm_num))]
    rw [Int.cast_natCast]
    have h2 : ((8 * n / 10 : ℕ) : ℚ) + ((8 * n % 10 : ℕ) : ℚ) / 10 =
        (((10 * (8 * n / 10) + 8 * n % 10 : ℕ)) : ℚ) / 10 := by
      push_cast
      ring
    rw [h2, Nat.div_add_mod (8 * n) 10]
    push_cast
    ring
  have hdend : x.den ≠ 0 := by
    rw [hx]
    show (Q.ofInt _).den * (fracValQ _).den ≠ 0
    rw [(fracValQ_single _).2]
    simp [Q.ofInt]
  simp only [entryShiftQ]
  rw [clean_scaledStr sgn n]
  by_cases hn0 : 0 < n
  · rw [if_pos hn0]
    cases sgn
    · -- '-' head
      rw [show (if (false : Bool) = true then '+' else '-') = '-' from rfl]
      simp only [List.cons_append, List.nil_append]
      refine ⟨x.neg.qAbs, ?_, ?_, ?_⟩
      · rw [if_pos (by simp)]
        rw [show pyFloatQ ('-' :: (natDigits (8 * n / 10) ++ '.' :: [digitChar (8 * n % 10)]))
            = (parseUnsignedDecimal (natDigits (8 * n / 10) ++ '.' :: [digitChar (8 * n % 10)])).map
              Q.neg from rfl]
        rw [hparse]
        rfl
      · simpa [Q.neg, Q.qAbs] using hdend
      · rw [Q.val_qAbs, Q.val_neg, abs_neg, hvald, abs_of_nonneg (by positivity)]
    · -- '+' head
      rw [show (if (true : Bool) = true then '+' else '-') = '+' from rfl]
      simp only [List.cons_append, List.nil_append]
      refine ⟨x.qAbs, ?_, ?_, ?_⟩
      · rw [if_pos (by simp)]
        rw [show pyFloatQ ('+' :: (natDigits (8 * n / 10) ++ '.' :: [digitChar (8 * n % 10)]))
            = parseUnsignedDecimal (natDigits (8 * n / 10) ++ '.' :: [digitChar (8 * n % 10)])
            from rfl]
        rw [hparse]
        rfl
      · simpa [Q.qAbs] using hdend
      · rw [Q.val_qAbs, hvald, abs_of_nonneg (by positivity)]
  · -- n = 0: no sign, parsed unsigned
    rw [if_neg hn0]
    simp only [List.nil_append]
    have hhead : headIsSign (natDigits (8 * n / 10) ++ '.' :: [digitChar (8 * n % 10)]) = false := by
      rcases hlist : natDigits (8 * n / 10) with _ | ⟨c, t⟩
      · exact absurd hlist hd10ne
      · have hcd : c.isDigit = true := by
          have := List.all_eq_true.mp hd10all c (by rw [hlist]; exact List.mem_cons_self c t)
          exact this
        simpa [headIsSign] using not_sign_of_digit hcd
    refine ⟨x, ?_, hdend, hvald⟩
    · rw [if_pos (by simp [hd10ne])]
      have hnosign : pyFloatQ (natDigits (8 * n / 10) ++ '.' :: [digitChar (8 * n % 10)])
          = parseUnsignedDecimal (natDigits (8 * n / 10) ++ '.' :: [digitChar (8 * n % 10)]) := by
        rcases hlist : natDigits (8 * n / 10) with _ | ⟨c, t⟩
        · exact absurd hlist hd10ne
        · have hcd : c.isDigit = true :=
            List.all_eq_true.mp hd10all c (by rw [hlist]; exact List.mem_cons_self c t)
          have hs := not_sign_of_digit hcd
          have hc1 : ¬ (c = '+') := by
            intro hcc
            rw [hcc] at hs
            simp at hs
          have hc2 : ¬ (c = '-') := by
            intro hcc
            rw [hcc] at hs
            simp at hs
          simp only [List.cons_append]
          rw [pyFloatQ]
          simp [hc1, hc2]
          intro t1 heq
          injection heq with h1 _
          exact hc2 h1
      rw [hnosign, hparse]
      simp [hhead]

/-- Sum of the rational values of the per-entry budget shifts. -/
def shiftsSum (cb : List (String × CBVal)) : ℚ :=
  (cb.map (fun e => match entryShiftQ e.2 with | some q => q.val | none => 0)).sum

theorem shiftsSum_cons (e : String × CBVal) (t : List (String × CBVal)) :
    shiftsSum (e :: t) =
      (match entryShiftQ e.2 with | some q => q.val | none => 0) + shiftsSum t := by
  simp [shiftsSum]

theorem budget_fold_spec (cb : List (String × CBVal)) (acc : Q) (hacc : acc.den ≠ 0)
    (hden : ∀ e ∈ cb, ∀ q, entryShiftQ e.2 = some q → q.den ≠ 0) :
    (cb.foldl (fun acc e => match entryShiftQ e.2 with
        | some shift => acc.add shift
        | none => acc) acc).den ≠ 0 ∧
      (cb.foldl (fun acc e => match entryShiftQ e.2 with
        | some shift => acc.add shift
        | none => acc) acc).val = acc.val + shiftsSum cb := by
  induction cb generalizing acc with
  | nil => simp [shiftsSum, hacc]
  | cons e t ih =>
    cases heq : entryShiftQ e.2 with
    | none =>
      have ht := ih acc hacc (fun e' he' => hden e' (List.mem_cons_of_mem _ he'))
      simp only [List.foldl_cons, heq]
      refine ⟨ht.1, ?_⟩
      rw [ht.2, shiftsSum_cons, heq]
      ring
    | some q =>
      have hq : q.den ≠ 0 := hden e (List.mem_cons_self _ _) q heq
      have haccq : (acc.add q).den ≠ 0 := Nat.mul_ne_zero hacc hq
      have ht := ih (acc.add q) haccq (fun e' he' => hden e' (List.mem_cons_of_mem _ he'))
      simp only [List.foldl_cons, heq]
      refine ⟨ht.1, ?_⟩
      rw [ht.2, Q.val_add acc q hacc hq, shiftsSum_cons, heq]
      ring

theorem budget_total_shift_spec (cb : List (String × CBVal))
    (hden : ∀ e ∈ cb, ∀ q, entryShiftQ e.2 = some q → q.den ≠ 0) :
    (budget_total_shift cb).den ≠ 0 ∧ (budget_total_shift cb).val = shiftsSum cb := by
  have h := budget_fold_spec cb Q.zero (by norm_num [Q.zero]) hden
  refine ⟨h.1, ?_⟩
  rw [show budget_total_shift cb = cb.foldl (fun acc e => match entryShiftQ e.2 with
      | some shift => acc.add shift
      | none => acc) Q.zero from rfl, h.2]
  simp [Q.zero, Q.val]

theorem shiftsSum_scaled (cb : List (String × CBVal))
    (hvals : ∀ e ∈ cb, ∃ sgn ds, ds ≠ [] ∧ ds.all Char.isDigit = true ∧
      e.2 = CBVal.vstr (mkSigned sgn ds)) :
    shiftsSum (cb.map (fun e => (e.1, (scaleChannelValue e.2).1))) = 4 / 5 * shiftsSum cb := by
  induction cb with
  | nil => simp [shiftsSum]
  | cons e t ih =>
    obtain ⟨sgn, ds, hne, hdig, he2⟩ := hvals e (List.mem_cons_self _ _)
    have horig : entryShiftQ e.2 = some (Q.ofInt (digitsValN ds)) := by
      rw [he2]
      exact entryShift_mkSigned sgn ds hne hdig
    have hscale : (scaleChannelValue e.2).1 = CBVal.vstr (scaledStr sgn (digitsValN ds)) := by
      rw [he2, scale_mkSigned sgn ds hne hdig]
    obtain ⟨q, hq, hqden, hqval⟩ := entryShift_scaledStr sgn (digitsValN ds)
    rw [List.map_cons, shiftsSum_cons, shiftsSum_cons]
    rw [show (((fun e => (e.1, (scaleChannelValue e.2).1)) e).2) = (scaleChannelValue e.2).1
      from rfl]
    rw [hscale, hq, horig]
    rw [ih (fun e' he' => hvals e' (List.mem_cons_of_mem _ he'))]
    show q.val + 4 / 5 * shiftsSum t = 4 / 5 * ((Q.ofInt (digitsValN ds)).val + shiftsSum t)
    rw [hqval, Q.val_ofInt]
    push_cast
    ring

/-- C4 (amended): a patch whose channel breakdown consists of signed
integer-percent delta strings, whose only heuristic violation can be
budget magnitude (audience and creative checks are clean), and whose
total shift is at most 31.25 (`125/4`), re-validates as passing after one
auto-downscope pass.  (The claim's `{"a": "+30%", "b": "-30%"}` example has
total shift 60 > 31.25 and does **not** re-pass; see the counterexample.) -/
theorem downscope_budget_only_repasses (p : Patch)
    (hvals : ∀ e ∈ p.budget_allocation.channel_breakdown, ∃ sgn ds, ds ≠ [] ∧
      ds.all Char.isDigit = true ∧ e.2 = CBVal.vstr (mkSigned sgn ds))
    (htot : (budget_total_shift p.budget_allocation.channel_breakdown).val ≤ 125 / 4)
    (haud : check_audience_sanity p = [])
    (hcre : check_creative_sanity p = []) :
    (validate_patch (downscope_patch_if_needed p (validate_patch p)).1).passed = true := by
  have hden : ∀ e ∈ p.budget_allocation.channel_breakdown, ∀ q,
      entryShiftQ e.2 = some q → q.den ≠ 0 := by
    intro e he q hq
    obtain ⟨sgn, ds, hne, hdig, he2⟩ := hvals e he
    rw [he2, entryShift_mkSigned sgn ds hne hdig] at hq
    cases hq
    simp [Q.ofInt]
  obtain ⟨hdenT, hvalT⟩ := budget_total_shift_spec p.budget_allocation.channel_breakdown hden
  by_cases hflag : Q.ltB (Q.ofInt 25) (budget_total_shift p.budget_allocation.channel_breakdown)
      = true
  · -- flagged: the downscope path
    have hcbne : p.budget_allocation.channel_breakdown ≠ [] := by
      intro h
      rw [h] at hflag
      exact absurd hflag (by decide)
    have hbud : check_budget_sanity p = ["budget_shift_exceeds_25_percent: total_shift="
        ++ fmt1 (budget_total_shift p.budget_allocation.channel_breakdown) ++ "%"] := by
      unfold check_budget_sanity
      rw [if_neg hcbne, if_pos hflag]
    have hpassed : (validate_patch p).passed = false := by
      simp [validate_patch, hbud, haud, hcre]
    have hbf : (validate_patch p).budget_flags = 1 := by
      simp [validate_patch, hbud]
    have hcf : (validate_patch p).creative_flags = 0 := by
      simp [validate_patch, hcre]
    have hstep : (downscope_patch_if_needed p (validate_patch p)).1 =
        { p with budget_allocation := { channel_breakdown :=
            (p.budget_allocation.channel_breakdown.map (fun e => (e.1, (scaleChannelValue e.2).1))) } } := by
      unfold downscope_patch_if_needed
      rw [if_neg (by rw [hpassed]; exact Bool.false_ne_true)]
      rw [if_neg (by rw [hcf]; norm_num)]
      rw [if_pos (by rw [hbf]; norm_num)]
      rw [if_pos hcbne]
      simp [List.map_map, Function.comp]
    set cbScaled := p.budget_allocation.channel_breakdown.map
      (fun e => (e.1, (scaleChannelValue e.2).1)) with hcbs
    have hvals1 : ∀ e ∈ cbScaled, ∀ q, entryShiftQ e.2 = some q → q.den ≠ 0 := by
      intro e he q hq
      rw [hcbs] at he
      obtain ⟨e0, he0, rfl⟩ := List.mem_map.mp he
      obtain ⟨sgn, ds, hne, hdig, he2⟩ := hvals e0 he0
      obtain ⟨q', hq', hden', hval'⟩ := entryShift_scaledStr sgn (digitsValN ds)
      rw [show ((fun e => (e.1, (scaleChannelValue e.2).1)) e0).2 = (scaleChannelValue e0.2).1
          from rfl, he2, scale_mkSigned sgn ds hne hdig] at hq
      rw [hq'] at hq
      cases hq
      exact hden'
    obtain ⟨hdenT1, hvalT1⟩ := budget_total_shift_spec cbScaled hvals1
    have hsum1 : shiftsSum cbScaled = 4 / 5 * shiftsSum p.budget_allocation.channel_breakdown :=
      shiftsSum_scaled p.budget_allocation.channel_breakdown hvals
    have hle : (budget_total_shift cbScaled).val ≤ 25 := by
      rw [hvalT1, hsum1, ← hvalT]
      linarith
    have hflag1 : Q.ltB (Q.ofInt 25) (budget_total_shift cbScaled) = false := by
      have hiff := Q.ltB_iff (Q.ofInt 25) (budget_total_shift cbScaled)
        (by simp [Q.ofInt]) hdenT1
      apply Bool.eq_false_iff.mpr
      intro h
      have h25 := hiff.mp h
      rw [Q.val_ofInt] at h25
      norm_num at h25
      linarith
    have hcbne1 : cbScaled ≠ [] := by
      rw [hcbs]
      simp [hcbne]
    have hbud1 : check_budget_sanity { p with budget_allocation :=
        { channel_breakdown := cbScaled } } = [] := by
      unfold check_budget_sanity
      rw [show ({ p with budget_allocation := { channel_breakdown := cbScaled } } :
          Patch).budget_allocation.channel_breakdown = cbScaled from rfl]
      rw [if_neg hcbne1, if_neg (by rw [hflag1]; exact Bool.false_ne_true)]
    have haud1 : check_audience_sanity { p with budget_allocation :=
        { channel_breakdown := cbScaled } } = [] := haud
    have hcre1 : check_creative_sanity { p with budget_allocation :=
        { channel_breakdown := cbScaled } } = [] := hcre
    rw [hstep]
    simp [validate_patch, hbud1, haud1, hcre1]
  · -- not flagged: validation passes and the downscope is a no-op
    have hbud : check_budget_sanity p = [] := by
      unfold check_budget_sanity
      by_cases h1 : p.budget_allocation.channel_breakdown = []
      · simp [h1]
      · simp [h1, hflag]
    have hpassed : (validate_patch p).passed = true := by
      simp [validate_patch, hbud, haud, hcre]
    have hd : downscope_patch_if_needed p (validate_patch p) = (p, false) := by
      unfold downscope_patch_if_needed
      rw [if_pos hpassed]
    rw [hd]
    exact hpassed

/-- A patch whose only violation is a budget shift of 28% (≤ 31.25%). -/
def exBudget28 : Patch :=
  { budget_allocation := { channel_breakdown := [("a", CBVal.vstr "+28%")] } }

/-- Witness for the amended C4 theorem: the single-channel `+28%` patch is
downscoped and then re-passes validation. -/
theorem downscope_budget_only_repasses_witness :
    (validate_patch (downscope_patch_if_needed exBudget28 (validate_patch exBudget28)).1).passed
      = true :=
  downscope_budget_only_repasses exBudget28
    (by
      intro e he
      rw [show exBudget28.budget_allocation.channel_breakdown = [("a", CBVal.vstr "+28%")]
        from rfl, List.mem_singleton] at he
      subst he
      exact ⟨true, ['2', '8'], by decide, by decide, by decide⟩)
    (by
      have h : budget_total_shift exBudget28.budget_allocation.channel_breakdown = ⟨28, 1⟩ := by
        decide
      rw [h]
      norm_num [Q.val])
    (by decide)
    (by decide)

/-! ### `gemini_orchestrator.py`: JSON extraction -/

/-- Does the text start with a code fence (three backticks)? -/
def startsWithTicks (l : List Char) : Bool :=
  match l with
  | '`' :: '`' :: '`' :: _ => true
  | _ => false

/-- Case-insensitive `json` label directly after the fence (`(?:json)?`
with `re.IGNORECASE`). -/
def lowerPrefixJson (l : List Char) : Bool :=
  match l with
  | a :: b :: c :: d :: _ =>
    (a.toLower = 'j') && (b.toLower = 's') && (c.toLower = 'o') && (d.toLower = 'n')
  | _ => false

/-- Greedy close for the fenced pattern: the longest prefix of the input
ending at a `}` that is followed by whitespace and a closing fence
(the backtracking search of `(\{.*\})\s*` + three backticks). -/
def findClose : List Char → Option (List Char)
  | [] => none
  | c :: rest =>
    match findClose rest with
    | some tail => some (c :: tail)
    | none =>
      if c = '}' ∧ startsWithTicks (rest.dropWhile pyWsChar) = true then some [c] else none

/-- Leftmost match of the fenced-block pattern
`(three backticks)(?:json)?\s*(\{.*\})\s*(three backticks)` with
`re.DOTALL | re.IGNORECASE`: scan start positions left to right; at a
fence, optionally consume the `json` label, skip whitespace, require `{`,
and close greedily. -/
def fencedSearch : List Char → Option (List Char)
  | [] => none
  | l@(_ :: rest) =>
    match
      (if startsWithTicks l then
        let r := l.drop 3
        let r2 := if lowerPrefixJson r then r.drop 4 else r
        match r2.dropWhile pyWsChar with
        | '{' :: afterBrace => (findClose afterBrace).map (fun body => '{' :: body)
        | _ => none
      else none) with
    | some g => some g
    | none => fencedSearch rest

/-- The longest prefix ending at the last `}` (greedy `.*` of the loose
pattern `\{.*\}`). -/
def findLastClose : List Char → Option (List Char)
  | [] => none
  | c :: rest =>
    match findLastClose rest with
    | some tail => some (c :: tail)
    | none => if c = '}' then some [c] else none

/-- `re.search(r'\{.*\}', text, re.DOTALL)`: from the first `{`, capture
greedily through the last `}` (a later `{` cannot succeed when the first
one fails, since any `}` after it also follows the first). -/
def looseSearch (l : List Char) : Option (List Char) :=
  match l.dropWhile (fun c => c ≠ '{') with
  | [] => none
  | c :: rest => (findLastClose rest).map (fun body => c :: body)

/-- `stripped.startswith('{')` over the character list. -/
def pyStartsWithBrace (s : String) : Bool :=
  match s.toList with
  | '{' :: _ => true
  | _ => false

/-- `stripped.endswith('}')` over the character list. -/
def pyEndsWithBrace (s : String) : Bool :=
  match s.toList.getLast? with
  | some '}' => true
  | _ => false

/-- `GeminiOrchestrator._extract_json_from_response`: strict priority —
(1) a fenced code block, optionally labeled `json`; (2) the whole trimmed
response when it starts with `{` and ends with `}`; (3) the largest
substring between the first `{` and the last `}`; otherwise the empty
string. -/
def _extract_json_from_response (response_text : String) : String :=
  if response_text = "" then ""
  else
    match fencedSearch response_text.toList with
    | some g => ⟨pyStripList g⟩
    | none =>
      let stripped := pyStrip response_text
      if pyStartsWithBrace stripped ∧ pyEndsWithBrace stripped then stripped
      else
        match looseSearch response_text.toList with
        | some g => ⟨pyStripList g⟩
        | none => ""

/-- The extraction algorithm exactly as the specification words it, where
tier (1) accepts only a fenced block carrying the `json` label (the label
is mandatory).  Stated for comparison with the embedded code, whose fence
label is optional. -/
def spec_extract_labeled_json (response_text : String) : String :=
  if response_text = "" then ""
  else
    match
      (let rec go : List Char → Option (List Char)
        | [] => none
        | l@(_ :: rest) =>
          match
            (if startsWithTicks l ∧ lowerPrefixJson (l.drop 3) = true then
              match (l.drop 7).dropWhile pyWsChar with
              | '{' :: afterBrace => (findClose afterBrace).map (fun body => '{' :: body)
              | _ => none
            else none) with
          | some g => some g
          | none => go rest
      go response_text.toList) with
    | some g => ⟨pyStripList g⟩
    | none =>
      let stripped := pyStrip response_text
      if pyStartsWithBrace stripped ∧ pyEndsWithBrace stripped then stripped
      else
        match looseSearch response_text.toList with
        | some g => ⟨pyStripList g⟩
        | none => ""

/-! ### Dynamic Python/JSON values -/

/-- A parsed JSON value as `json.loads` returns it (restricted to the
shapes this pipeline reads). -/
inductive PyV where
  | s (v : String)
  | num (n : ℤ)
  | bool (b : Bool)
  | none
  | list (xs : List PyV)
  | dict (fields : List (String × PyV))

/-- Python `d[k]` / `d.get(k)` on a dict value. -/
def PyV.getKey : PyV → String → Option PyV
  | .dict fields, k => fields.lookup k
  | _, _ => Option.none

/-- Python `'k' in d` for both required keys of the sanity-gate response
(non-dicts fail the membership test or raise, ending in the same fallback). -/
def hasGateKeys (v : PyV) : Bool :=
  match v with
  | .dict fields => (fields.lookup "approved_actions").isSome && (fields.lookup "flagged").isSome
  | _ => false

/-- `repr(list(d.keys()))` as Python prints it inside the ValueError. -/
def pyStrListRepr (ks : List String) : String :=
  "[" ++ String.intercalate ", " (ks.map (fun k => "'" ++ k ++ "'")) ++ "]"

/-- The top-level keys of a dict value. -/
def pyKeys (v : PyV) : List String :=
  match v with
  | .dict fields => fields.map Prod.fst
  | _ => []

/-! ### `gemini_orchestrator.py`: the insights parse stage -/

/-- `str(json.JSONDecodeError(msg, doc, 0))`. -/
def jsonDecodeErrMsg (msg : String) : String :=
  msg ++ ": line 1 column 1 (char 0)"

/-- The fallback dictionary built by `generate_insights` in its
`json.JSONDecodeError` handler: empty insights, a marked selection
method, the error text, and the raw response for diagnosis. -/
def insights_parse_fallback (e : String) (raw : String) : PyV :=
  .dict [("insights", .list []),
    ("candidates_evaluated", .num 0),
    ("selection_method", .s "failed_parse"),
    ("error", .s e),
    ("raw_analysis", .s raw)]

/-- Outcome of the parse stage of `generate_insights`. -/
inductive InsightsParseOutcome where
  | parsed (v : PyV)
  | parseFallback (fb : PyV)

/-- The parse stage of `GeminiOrchestrator.generate_insights`: extract
JSON from the LLM response (`insights_text`); an empty extraction raises
`json.JSONDecodeError("No JSON content found", insights_text, 0)` which
the handler converts into the fallback dictionary; a `json.loads` failure
(modeled by the `loads` parameter) takes the same handler; a parsed value
continues into the validation/scoring pipeline embedded above. -/
def generate_insights_parse (loads : String → Except String PyV) (insights_text : String) :
    InsightsParseOutcome :=
  let clean_json := _extract_json_from_response insights_text
  if clean_json = "" then
    .parseFallback (insights_parse_fallback (jsonDecodeErrMsg "No JSON content found")
      insights_text)
  else
    match loads clean_json with
    | .error e => .parseFallback (insights_parse_fallback e insights_text)
    | .ok v => .parsed v

/-! ### `sanity_gate.py` -/

/-- The fallback review dictionary of `SanityGate.reflect_on_patch`'s
exception handler: no approvals, exactly one synthetic flag naming the
gate failure, and the conservative `review_recommended` assessment. -/
def sanity_gate_fallback (e : String) : PyV :=
  .dict [("approved_actions", .list []),
    ("flagged", .list [.dict [("action_id", .s "sanity_gate_failed"),
      ("reason", .s ("Sanity gate error: " ++ e)),
      ("risk", .s "unknown"),
      ("recommendation", .s "Manual review required")]]),
    ("overall_assessment", .s "review_recommended"),
    ("error", .s e)]

/-- `SanityGate.reflect_on_patch`, parameterized by the awaited LLM
response text and by `json.loads` (`loads`; a raised `JSONDecodeError`
is its `.error` case).  Empty extraction raises `ValueError("No JSON
content found in sanity gate response")`; missing top-level keys raise
`ValueError("Invalid sanity gate response structure: ...")`; every raise
lands in the `except` handler returning the fallback review. -/
def reflect_on_patch (loads : String → Except String PyV) (response_text : String) : PyV :=
  let clean_json := _extract_json_from_response response_text
  if clean_json = "" then
    sanity_gate_fallback "No JSON content found in sanity gate response"
  else
    match loads clean_json with
    | .error e => sanity_gate_fallback e
    | .ok review =>
      if hasGateKeys review then review
      else sanity_gate_fallback ("Invalid sanity gate response structure: "
        ++ pyStrListRepr (pyKeys review))

/-- Did the sanity-gate response survive extraction, `json.loads` and the
key check?  (`false` is exactly the gate-failure condition of C6.) -/
def gate_parse_ok (loads : String → Except String PyV) (response_text : String) : Bool :=
  let clean_json := _extract_json_from_response response_text
  if clean_json = "" then false
  else
    match loads clean_json with
    | .error _ => false
    | .ok v => hasGateKeys v

/-- A sanity flag as `should_block_patch` reads it (`f.get('risk')`). -/
structure SGFlag where
  risk : Option String := Option.none
deriving Repr, DecidableEq

/-- The `annotations` dictionary slice read by `should_block_patch`. -/
structure SGAnnots where
  sanity_flags : List SGFlag := []
deriving Repr, DecidableEq

/-- A patch as annotated by the sanity gate, restricted to the fields
`should_block_patch` reads. -/
structure SGPatch where
  sanity_review : Option String := Option.none
  annotations : SGAnnots := {}
deriving Repr, DecidableEq

/-- The count of `risk == 'high'` flags. -/
def high_risk_count (patch : SGPatch) : ℕ :=
  (patch.annotations.sanity_flags.filter (fun f => f.risk = some "high")).length

/-- `SanityGate.should_block_patch`: never auto-blocks; recommends a
block only when the overall review is `high_risk` **and** at least two
flags carry `risk = 'high'`. -/
def should_block_patch (patch : SGPatch) : Bool :=
  if patch.sanity_review = some "high_risk" then
    if high_risk_count patch ≥ 2 then true else false
  else false

/-! ### Theorems for C5, C6, C7 -/

/-- Counterexample for C5: the code's first extraction tier accepts a
fenced block *without* the `json` label, so on a response holding an
unlabeled fenced block plus a later brace pair, the code returns the
fenced payload while the claimed labeled-only priority falls through to
tier (3) and returns a different substring. -/
theorem extract_labeled_only_counterexample :
    _extract_json_from_response "x ``` {1} ``` y {2} z" = "{1}" ∧
      spec_extract_labeled_json "x ``` {1} ``` y {2} z" = "{1} ``` y {2}" ∧
      _extract_json_from_response "x ``` {1} ``` y {2} z" ≠
        spec_extract_labeled_json "x ``` {1} ``` y {2} z" := by
  refine ⟨by decide, by decide, ?_⟩
  decide

/-- C5 (amended): extraction follows the strict priority — (1) a fenced
code block *optionally* labeled `json`; (2) the whole trimmed response if
it starts with `{` and ends with `}`; (3) the largest substring between
the first `{` and the last `}` — and returns `""` when none match; the
insight-generation caller turns an empty extraction into a hard parse
failure, returning the fallback dictionary that carries an error field,
an empty insights list, and the raw text, instead of raising. -/
theorem extract_priority_and_fallback :
    (∀ r : String, r = "" → _extract_json_from_response r = "") ∧
      (∀ (r : String) (g : List Char), r ≠ "" → fencedSearch r.toList = some g →
        _extract_json_from_response r = ⟨pyStripList g⟩) ∧
      (∀ r : String, r ≠ "" → fencedSearch r.toList = Option.none →
        pyStartsWithBrace (pyStrip r) = true → pyEndsWithBrace (pyStrip r) = true →
        _extract_json_from_response r = pyStrip r) ∧
      (∀ (r : String) (g : List Char), r ≠ "" → fencedSearch r.toList = Option.none →
        ¬(pyStartsWithBrace (pyStrip r) = true ∧ pyEndsWithBrace (pyStrip r) = true) →
        looseSearch r.toList = some g → _extract_json_from_response r = ⟨pyStripList g⟩) ∧
      (∀ r : String, r ≠ "" → fencedSearch r.toList = Option.none →
        ¬(pyStartsWithBrace (pyStrip r) = true ∧ pyEndsWithBrace (pyStrip r) = true) →
        looseSearch r.toList = Option.none → _extract_json_from_response r = "") ∧
      (∀ (loads : String → Except String PyV) (text : String),
        _extract_json_from_response text = "" →
        generate_insights_parse loads text =
          .parseFallback (insights_parse_fallback (jsonDecodeErrMsg "No JSON content found")
            text)) := by
  refine ⟨?_, ?_, ?_, ?_, ?_, ?_⟩
  · intro r hr
    simp [_extract_json_from_response, hr]
  · intro r g hr hf
    simp only [String.toList] at hf
    simp [_extract_json_from_response, hr, hf]
  · intro r hr hf h1 h2
    simp only [String.toList] at hf
    simp [_extract_json_from_response, hr, hf, h1, h2]
  · intro r g hr hf h12 hl
    simp only [String.toList] at hf hl
    rcases Decidable.not_and_iff_or_not.mp h12 with h | h <;>
      simp [_extract_json_from_response, hr, hf, hl, h]
  · intro r hr hf h12 hl
    simp only [String.toList] at hf hl
    rcases Decidable.not_and_iff_or_not.mp h12 with h | h <;>
      simp [_extract_json_from_response, hr, hf, hl, h]
  · intro loads text hempty
    simp [generate_insights_parse, hempty]

/-- Witness for C5: a labeled fenced block is extracted at tier (1), and
a response with no JSON at all produces the parse-failure fallback
carrying the raw text. -/
theorem extract_priority_and_fallback_witness :
    _extract_json_from_response "```json\n{1}\n```" = ⟨pyStripList "{1}".toList⟩ ∧
      generate_insights_parse (fun _ => Except.error "boom") "no json here" =
        .parseFallback (insights_parse_fallback (jsonDecodeErrMsg "No JSON content found")
          "no json here") :=
  ⟨extract_priority_and_fallback.2.1 "```json\n{1}\n```" "{1}".toList
      (by decide) (by decide),
    extract_priority_and_fallback.2.2.2.2.2 (fun _ => Except.error "boom") "no json here"
      (by decide)⟩

/-- C6: whenever the sanity-gate response cannot be extracted, fails
`json.loads`, or lacks the `approved_actions`/`flagged` keys,
`reflect_on_patch` returns a review whose `overall_assessment` is
`review_recommended` with exactly one synthetic flag named
`sanity_gate_failed`, and never the `safe` assessment. -/
theorem reflect_gate_failure_conservative (loads : String → Except String PyV) (t : String)
    (h : gate_parse_ok loads t = false) :
    PyV.getKey (reflect_on_patch loads t) "overall_assessment"
        = some (PyV.s "review_recommended") ∧
      (∃ flag, PyV.getKey (reflect_on_patch loads t) "flagged" = some (PyV.list [flag]) ∧
        PyV.getKey flag "action_id" = some (PyV.s "sanity_gate_failed")) ∧
      PyV.getKey (reflect_on_patch loads t) "overall_assessment" ≠ some (PyV.s "safe") := by
  have hfb : ∀ e : String,
      PyV.getKey (sanity_gate_fallback e) "overall_assessment"
          = some (PyV.s "review_recommended") ∧
        (∃ flag, PyV.getKey (sanity_gate_fallback e) "flagged" = some (PyV.list [flag]) ∧
          PyV.getKey flag "action_id" = some (PyV.s "sanity_gate_failed")) ∧
        PyV.getKey (sanity_gate_fallback e) "overall_assessment" ≠ some (PyV.s "safe") := by
    intro e
    refine ⟨rfl, ⟨_, rfl, rfl⟩, ?_⟩
    intro hcontra
    have h1 := Option.some.inj hcontra
    injection h1 with h2
    exact absurd h2 (by decide)
  have hred : ∃ e, reflect_on_patch loads t = sanity_gate_fallback e := by
    unfold reflect_on_patch
    unfold gate_parse_ok at h
    by_cases he : _extract_json_from_response t = ""
    · rw [if_pos he]
      exact ⟨_, rfl⟩
    · rw [if_neg he]
      rw [if_neg he] at h
      cases hl : loads (_extract_json_from_response t) with
      | error e => exact ⟨e, rfl⟩
      | ok review =>
        rw [hl] at h
        have h2 : hasGateKeys review = false := h
        refine ⟨"Invalid sanity gate response structure: " ++ pyStrListRepr (pyKeys review), ?_⟩
        show (if hasGateKeys review = true then review
          else sanity_gate_fallback ("Invalid sanity gate response structure: "
            ++ pyStrListRepr (pyKeys review))) = _
        rw [if_neg (by rw [h2]; exact Bool.false_ne_true)]
  obtain ⟨e, he⟩ := hred
  rw [he]
  exact hfb e

/-- Witness for C6: an un-parsable (empty) gate response degrades to the
`review_recommended` fallback with one synthetic flag. -/
theorem reflect_gate_failure_conservative_witness :
    PyV.getKey (reflect_on_patch (fun _ => Except.error "boom") "") "overall_assessment"
        = some (PyV.s "review_recommended") ∧
      (∃ flag, PyV.getKey (reflect_on_patch (fun _ => Except.error "boom") "") "flagged"
          = some (PyV.list [flag]) ∧
        PyV.getKey flag "action_id" = some (PyV.s "sanity_gate_failed")) ∧
      PyV.getKey (reflect_on_patch (fun _ => Except.error "boom") "") "overall_assessment"
        ≠ some (PyV.s "safe") :=
  reflect_gate_failure_conservative (fun _ => Except.error "boom") "" (by decide)

/-- The patch with two high-risk flags but a non-`high_risk` overall
review, on which the claim's blocking rule and the code disagree. -/
def exTwoHighFlags : SGPatch :=
  { sanity_review := some "review_recommended",
    annotations := { sanity_flags := [{ risk := some "high" }, { risk := some "high" }] } }

/-- Counterexample for C7: a patch with two `risk = high` sanity flags
whose `sanity_review` is `review_recommended` (not `high_risk`) is *not*
recommended for blocking — `should_block_patch` first requires the
overall assessment to be `high_risk`. -/
theorem should_block_two_high_counterexample :
    2 ≤ high_risk_count exTwoHighFlags ∧ should_block_patch exTwoHighFlags = false := by
  decide

/-- C7 (amended): `should_block_patch` returns true exactly when the
patch's `sanity_review` is `high_risk` *and* at least two of its sanity
flags have `risk = 'high'`. -/
theorem should_block_iff (patch : SGPatch) :
    should_block_patch patch = true ↔
      (patch.sanity_review = some "high_risk" ∧ 2 ≤ high_risk_count patch) := by
  unfold should_block_patch
  by_cases h1 : patch.sanity_review = some "high_risk"
  · by_cases h2 : high_risk_count patch ≥ 2 <;> simp [h1, h2]
  · simp [h1]

/-! ### `schema_detector.py` (classification and primary-dimension slice)

The opportunity-detection and data-dictionary rendering of
`detect_schema` do not feed back into column classification or
primary-dimension selection and are not embedded; cells are modeled as
strings, as `csv.DictReader` produces them. -/

/-- Substring containment on character lists (`re.search` of a literal). -/
def listContains (needle haystack : List Char) : Bool :=
  decide (needle <:+: haystack)

/-- The suffix following the first occurrence of `seg`, if any. -/
def dropAfterFirst (seg : List Char) : List Char → Option (List Char)
  | [] => if seg = [] then some [] else Option.none
  | c :: rest =>
    if List.isPrefixOf seg (c :: rest) then some ((c :: rest).drop seg.length)
    else dropAfterFirst seg rest

/-- `re.search` of a pattern written as literal segments separated by
`.*` (e.g. `ad.*group` is `["ad", "group"]`): the segments must occur in
order. -/
def searchSegs : List (List Char) → List Char → Bool
  | [], _ => true
  | seg :: rest, s =>
    match dropAfterFirst seg s with
    | some remainder => searchSegs rest remainder
    | Option.none => false

/-- `EFFICIENCY_PATTERNS`. -/
def EFFICIENCY_PATTERNS : List (List String) :=
  [["roas"], ["roi"], ["return"], ["ctr"], ["click", "through"], ["conversion", "rate"],
    ["cvr"], ["engagement", "rate"], ["quality", "score"], ["relevance", "score"],
    ["view", "rate"], ["completion", "rate"], ["vtr"]]

/-- `COST_PATTERNS`. -/
def COST_PATTERNS : List (List String) :=
  [["cpc"], ["cpa"], ["cpm"], ["cost", "per"], ["acos"], ["spend"], ["budget"],
    ["price"], ["bid"], ["cost"], ["expense"], ["cpl"], ["cpe"]]

/-- `VOLUME_PATTERNS`. -/
def VOLUME_PATTERNS : List (List String) :=
  [["impression"], ["click"], ["view"], ["reach"], ["order"], ["conversion"], ["sale"],
    ["purchase"], ["lead"], ["signup"], ["install"], ["engagement"], ["share"], ["like"],
    ["comment"], ["follower"]]

/-- `DIMENSION_PATTERNS`. -/
def DIMENSION_PATTERNS : List (List String) :=
  [["keyword"], ["campaign"], ["ad", "group"], ["creative"], ["geo"], ["location"],
    ["region"], ["country"], ["city"], ["device"], ["platform"], ["channel"], ["audience"],
    ["segment"], ["age"], ["gender"], ["interest"], ["placement"], ["match", "type"],
    ["type"], ["category"], ["product"], ["sku"]]

/-- `COMPARATIVE_PATTERNS`. -/
def COMPARATIVE_PATTERNS : List (String × String) :=
  [("current", "suggested"), ("current", "benchmark"), ("actual", "target"),
    ("actual", "expected"), ("previous", "current"), ("before", "after")]

/-- Does any pattern of the family match the (case-insensitively
searched) column name? -/
def patMatch (pats : List (List String)) (col_name : String) : Bool :=
  pats.any (fun p => searchSegs (p.map String.toList) (pyLower col_name).toList)

/-- `ID_PATTERNS = [r'id$', r'_id$', r'^id', r'uuid', r'guid', r'key']`
(note the unanchored `key`, which also matches inside `keyword`). -/
def idNameMatch (col_name : String) : Bool :=
  let l := (pyLower col_name).toList
  List.isSuffixOf "id".toList l || List.isSuffixOf "_id".toList l ||
    List.isPrefixOf "id".toList l || listContains "uuid".toList l ||
    listContains "guid".toList l || listContains "key".toList l

/-- Remove the first occurrence of a character (`str.replace(c, '', 1)`). -/
def removeFirst (c : Char) : List Char → List Char
  | [] => []
  | x :: rest => if x = c then rest else x :: removeFirst c rest

/-- Python `str.isdigit()` (ASCII digits). -/
def pyIsdigitStr (l : List Char) : Bool :=
  l ≠ [] && l.all (fun c => c.isDigit)

/-- `SchemaDetector._extract_numeric_values` on string cells: strip
`%`/`$`/`,`, check the digits-with-one-dot-and-one-minus shape, and
parse with `float()`. -/
def _extract_numeric_values (values : List String) : List Q :=
  values.filterMap (fun v =>
    let v_clean := pyStripList (v.toList.filter (fun c => ¬(c = '%' ∨ c = '$' ∨ c = ',')))
    if v_clean ≠ [] ∧ pyIsdigitStr (removeFirst '-' (removeFirst '.' v_clean)) = true then
      pyFloatQ v_clean
    else Option.none)

/-- Literal `str.replace(sub, repl, 1)`. -/
def replaceFirstL (sub repl : List Char) : List Char → List Char
  | [] => []
  | c :: rest =>
    if List.isPrefixOf sub (c :: rest) then repl ++ (c :: rest).drop sub.length
    else c :: replaceFirstL sub repl rest

/-- `col_name.replace(p1, p2, 1)` (an empty pattern inserts in front). -/
def pyReplaceFirst (sub repl s : String) : String :=
  if sub.toList = [] then ⟨repl.toList ++ s.toList⟩
  else ⟨replaceFirstL sub.toList repl.toList s.toList⟩

/-- The comparative-pair check of `_classify_column`: a swapped-prefix
partner column must exist. -/
def comparativeMatch (col_name : String) (all_columns : List String) : Bool :=
  let col_lower := pyLower col_name
  COMPARATIVE_PATTERNS.any (fun pr =>
    (listContains pr.1.toList col_lower.toList &&
      all_columns.contains (pyReplaceFirst pr.1 pr.2 col_name)) ||
    (listContains pr.2.toList col_lower.toList &&
      all_columns.contains (pyReplaceFirst pr.2 pr.1 col_name)))

/-- Division of a `Q` by a natural (float division by a list length). -/
def Q.divNat (a : Q) (n : ℕ) : Q := ⟨a.num, a.den * n⟩

/-- Sum of a list of `Q`. -/
def sumQ (l : List Q) : Q := l.foldl Q.add Q.zero

/-- Python `max` over a nonempty list. -/
def maxQ : List Q → Q
  | [] => Q.zero
  | x :: rest => rest.foldl (fun a b => if Q.ltB a b then b else a) x

/-- The value-range fallback of the numeric branch: bounded averages are
efficiency metrics, large maxima are volume metrics. -/
def classifyNumericValueRange (numeric_values : List Q) : Option String :=
  if numeric_values ≠ [] then
    let avg_val := Q.divNat (sumQ numeric_values) numeric_values.length
    let max_val := maxQ numeric_values
    if (Q.leB Q.zero avg_val && Q.leB avg_val (Q.ofInt 100)) &&
        (numeric_values.take 20).all (fun v => Q.leB Q.zero v && Q.leB v (Q.ofInt 1000)) then
      some "efficiency"
    else if Q.ltB (Q.ofInt 1000) max_val then some "volume"
    else Option.none
  else Option.none

/-- `SchemaDetector._classify_column`: identifier name patterns win
outright; numeric columns try the metric name families, comparative
pairs, then value ranges; otherwise dimension name patterns or low
cardinality make a dimension; else `unknown`. -/
def _classify_column (col_name : String) (values0 : List String) (all_columns : List String) :
    String :=
  let values := values0.filter (fun v => pyStripList v.toList ≠ [])
  if values = [] then "unknown"
  else if idNameMatch col_name then "identifier"
  else
    let numeric_values := _extract_numeric_values values
    let is_numeric := Q.ltB ⟨(values.length : ℤ) * 7, 10⟩ (Q.ofInt numeric_values.length)
    let numericResult :=
      if is_numeric then
        if patMatch EFFICIENCY_PATTERNS col_name then some "efficiency"
        else if patMatch COST_PATTERNS col_name then some "cost"
        else if patMatch VOLUME_PATTERNS col_name then some "volume"
        else if comparativeMatch col_name all_columns then some "comparative"
        else classifyNumericValueRange numeric_values
      else Option.none
    match numericResult with
    | some r => r
    | Option.none =>
      if patMatch DIMENSION_PATTERNS col_name then "dimension"
      else
        let unique_count := values.eraseDups.length
        let cardFrac := if values.length > 0 then (⟨(unique_count : ℤ), values.length⟩ : Q)
          else Q.zero
        if Q.ltB cardFrac ⟨5, 10⟩ then "dimension" else "unknown"

/-- Number of distinct truthy values a dimension takes in the data. -/
def dimCardinality (dim : String) (data : List (List (String × String))) : ℕ :=
  ((data.filterMap (fun row =>
    match row.lookup dim with
    | some v => if v ≠ "" then some v else Option.none
    | Option.none => Option.none)).eraseDups).length

/-- Python `max(d, key=d.get)`: the first key attaining the maximum. -/
def argmaxFirst (f : String → ℕ) : List String → String
  | [] => "row"
  | d :: rest => rest.foldl (fun best x => if f x > f best then x else best) d

/-- `SchemaDetector._determine_primary_dimension`: prefer a dimension
containing `keyword`, else one containing `campaign`, else the dimension
of highest cardinality (first on ties). -/
def _determine_primary_dimension (dimensions : List String)
    (data : List (List (String × String))) : String :=
  if dimensions = [] then "row"
  else
    match dimensions.find? (fun d => listContains "keyword".toList (pyLower d).toList) with
    | some d => d
    | Option.none =>
      match dimensions.find? (fun d => listContains "campaign".toList (pyLower d).toList) with
      | some d => d
      | Option.none => argmaxFirst (fun d => dimCardinality d data) dimensions

/-- Lexicographic (code-point) order on strings, as Python `sorted` uses. -/
def charListLt : List Char → List Char → Bool
  | [], [] => false
  | [], _ :: _ => true
  | _ :: _, [] => false
  | a :: as_, b :: bs => if a < b then true else if b < a then false else charListLt as_ bs

/-- Insert into an ascending list. -/
def insertSorted (a : String) : List String → List String
  | [] => [a]
  | b :: rest => if charListLt b.toList a.toList then b :: insertSorted a rest else a :: b :: rest

/-- `sorted(all_columns)`. -/
def sortStrings (l : List String) : List String :=
  l.foldr insertSorted []

/-- The metric family lists of the schema dictionary. -/
structure SchemaMetrics where
  efficiency_metrics : List String := []
  cost_metrics : List String := []
  volume_metrics : List String := []
  comparative_metrics : List String := []
deriving Repr, DecidableEq

/-- The classification slice of the schema dictionary built by
`detect_schema`. -/
structure SchemaSlice where
  primary_dimension : String
  row_count : ℕ
  dimensions : List String
  identifiers : List String
  metrics : SchemaMetrics
  unclassified : List String
deriving Repr, DecidableEq

/-- `SchemaDetector.detect_schema` (classification and primary-dimension
slice): collect the sorted column set, classify each column from its
values, group the classes, and choose the primary dimension. -/
def detect_schema_slice (data : List (List (String × String))) : SchemaSlice :=
  if data = [] then
    { primary_dimension := "row", row_count := 0, dimensions := [], identifiers := [],
      metrics := {}, unclassified := [] }
  else
    let all_columns := sortStrings ((data.foldl (fun acc row => acc ++ row.map Prod.fst) []).eraseDups)
    let classified := all_columns.map (fun col =>
      (col, _classify_column col (data.filterMap (fun row => row.lookup col)) all_columns))
    let dimensions := classified.filterMap
      (fun e => if e.2 = "dimension" then some e.1 else Option.none)
    { primary_dimension := _determine_primary_dimension dimensions data,
      row_count := data.length,
      dimensions := dimensions,
      identifiers := classified.filterMap
        (fun e => if e.2 = "identifier" then some e.1 else Option.none),
      metrics :=
        { efficiency_metrics := classified.filterMap
            (fun e => if e.2 = "efficiency" then some e.1 else Option.none),
          cost_metrics := classified.filterMap
            (fun e => if e.2 = "cost" then some e.1 else Option.none),
          volume_metrics := classified.filterMap
            (fun e => if e.2 = "volume" then some e.1 else Option.none),
          comparative_metrics := classified.filterMap
            (fun e => if e.2 = "comparative" then some e.1 else Option.none) },
      unclassified := classified.filterMap
        (fun e => if e.2 = "unknown" then some e.1 else Option.none) }

/-- A dataset holding a categorical `keyword` column and a `campaign`
column. -/
def exKeywordData : List (List (String × String)) :=
  [[("keyword", "shoes"), ("campaign", "brand")],
    [("keyword", "boots"), ("campaign", "brand")]]

/-- C8 (code bug): the identifier pattern `r'key'` matches the substring
`key` of `keyword`, so a column literally named `keyword` is classified
as an *identifier*, never reaches the dimension list, and therefore can
never be chosen as primary dimension — on a dataset with categorical
`keyword` and `campaign` columns the primary dimension is `campaign`,
not `keyword`, contradicting the claim, the function's own docstring
("Prefer 'keyword' if present"), the explicit `keyword` entry of
`DIMENSION_PATTERNS`, and the repository's Amazon-CSV test. -/
theorem keyword_column_identifier_bug :
    _classify_column "keyword" ["shoes", "boots"] ["campaign", "keyword"] = "identifier" ∧
      (detect_schema_slice exKeywordData).primary_dimension = "campaign" ∧
      (detect_schema_slice exKeywordData).primary_dimension ≠ "keyword" ∧
      (detect_schema_slice exKeywordData).identifiers = ["keyword"] ∧
      (detect_schema_slice exKeywordData).dimensions = ["campaign"] := by
  decide

/-! ### Heap model for `downscope_patch_if_needed` (frame effects)

`downscope_patch_if_needed` starts with `new_patch = patch.copy()`, a
*shallow* dict copy: the new top-level dict holds references to the same
nested `budget_allocation`/`channel_breakdown` and `messaging_strategy`
objects.  The value semantics above cannot express this, so the function
is also embedded against an explicit object heap: addresses are naturals,
mutation is a store update, `patch.copy()` is an allocation sharing all
field references. -/

/-- A heap object: a dict of references, a string-valued dict
(`channel_breakdown`), a string list (`key_themes`), or a segment list. -/
inductive HObj where
  | dict (fields : List (String × ℕ))
  | strDict (entries : List (String × CBVal))
  | strList (xs : List String)
  | segList (segs : List Segment)
deriving DecidableEq, Repr

/-- The object store. -/
def Heap := List (ℕ × HObj)

/-- Dereference. -/
def heapGet (h : Heap) (a : ℕ) : Option HObj :=
  List.lookup a h

/-- In-place mutation of the object at an address. -/
def heapSet (h : Heap) (a : ℕ) (o : HObj) : Heap :=
  h.map (fun e => if e.1 = a then (a, o) else e)

/-- Largest allocated address. -/
def maxAddr (h : Heap) : ℕ :=
  h.foldl (fun m e => max m e.1) 0

/-- Allocate a fresh object. -/
def halloc (h : Heap) (o : HObj) : Heap × ℕ :=
  let a := maxAddr h + 1
  ((a, o) :: h, a)

/-- The reference stored under a field of a dict object. -/
def getFieldAddr (h : Heap) (p : ℕ) (f : String) : Option ℕ :=
  match heapGet h p with
  | some (.dict fields) => fields.lookup f
  | _ => Option.none

/-- `patch.get('budget_allocation', {}).get('channel_breakdown', {})`
read through the heap. -/
def readCB (h : Heap) (p : ℕ) : List (String × CBVal) :=
  match getFieldAddr h p "budget_allocation" with
  | some ba =>
    match getFieldAddr h ba "channel_breakdown" with
    | some cba =>
      match heapGet h cba with
      | some (.strDict entries) => entries
      | _ => []
    | Option.none => []
  | Option.none => []

/-- `patch.get('messaging_strategy', {}).get('key_themes', [])` read
through the heap. -/
def readThemes (h : Heap) (p : ℕ) : List String :=
  match getFieldAddr h p "messaging_strategy" with
  | some ms =>
    match getFieldAddr h ms "key_themes" with
    | some kta =>
      match heapGet h kta with
      | some (.strList xs) => xs
      | _ => []
    | Option.none => []
  | Option.none => []

/-- `patch.get('audience_targeting', {}).get('segments', [])` read
through the heap. -/
def readSegments (h : Heap) (p : ℕ) : List Segment :=
  match getFieldAddr h p "audience_targeting" with
  | some at_ =>
    match getFieldAddr h at_ "segments" with
    | some sa =>
      match heapGet h sa with
      | some (.segList segs) => segs
      | _ => []
    | Option.none => []
  | Option.none => []

/-- Python dict assignment `d[k] = a`: replace the existing binding or
append a new one. -/
def setAssoc (fields : List (String × ℕ)) (f : String) (a : ℕ) : List (String × ℕ) :=
  if (fields.lookup f).isSome then fields.map (fun e => if e.1 = f then (f, a) else e)
  else fields ++ [(f, a)]

/-- `d[k] = a` on a dict object in the heap. -/
def setField (h : Heap) (d : ℕ) (f : String) (a : ℕ) : Heap :=
  match heapGet h d with
  | some (.dict fields) => heapSet h d (.dict (setAssoc fields f a))
  | _ => h

/-- `HeuristicFilters.downscope_patch_if_needed` under the heap model:
`new_patch = patch.copy()` allocates a top-level dict sharing every field
reference; scaling writes the shared `channel_breakdown` object in place;
theme trimming rebinds `key_themes` inside the shared
`messaging_strategy` dict.  Returns the new patch address, the
`was_modified` flag, and the resulting heap. -/
def downscope_patch_heap (h : Heap) (p : ℕ) (vr : ValidationResult) : ℕ × Bool × Heap :=
  if vr.passed then (p, false, h)
  else
    let fields := match heapGet h p with
      | some (.dict fs) => fs
      | _ => []
    let alloc1 := halloc h (.dict fields)
    let h1 := alloc1.1
    let p' := alloc1.2
    let budgetStep :=
      if vr.budget_flags > 0 then
        match getFieldAddr h1 p' "budget_allocation" with
        | some ba =>
          match getFieldAddr h1 ba "channel_breakdown" with
          | some cba =>
            match heapGet h1 cba with
            | some (.strDict entries) =>
              if entries ≠ [] then
                let scaled := entries.map (fun e => (e.1, scaleChannelValue e.2))
                (heapSet h1 cba (.strDict (scaled.map (fun e => (e.1, e.2.1)))),
                  scaled.any (fun e => e.2.2))
              else (h1, false)
            | _ => (h1, false)
          | Option.none => (h1, false)
        | Option.none => (h1, false)
      else (h1, false)
    let h2 := budgetStep.1
    let modified := budgetStep.2
    let creativeStep :=
      if vr.creative_flags > 0 then
        let key_themes := readThemes h2 p'
        let segments := readSegments h2 p'
        if key_themes.length > segments.length * 3 then
          match getFieldAddr h2 p' "messaging_strategy" with
          | some ms =>
            let alloc2 := halloc h2 (.strList (key_themes.take (segments.length * 3)))
            (setField alloc2.1 ms "key_themes" alloc2.2, true)
          | Option.none => (h2, modified)
        else (h2, modified)
      else (h2, modified)
    (p', creativeStep.2, creativeStep.1)

/-- The canonical heap layout of a patch as built from parsed JSON:
distinct nested objects for the budget breakdown, the themes and the
segments, all reachable from the top-level patch dict. -/
def mkPatchHeap (cb : List (String × CBVal)) (themes : List String) (segs : List Segment) :
    Heap × ℕ :=
  ([(6, .dict [("budget_allocation", 1), ("audience_targeting", 5), ("messaging_strategy", 3)]),
    (5, .dict [("segments", 4)]),
    (4, .segList segs),
    (3, .dict [("key_themes", 2)]),
    (2, .strList themes),
    (1, .dict [("channel_breakdown", 0)]),
    (0, .strDict cb)],
   6)

/-- C10: `downscope_patch_if_needed` copies only the top level of the
patch, so after downscoping, the returned patch and the caller's
original patch read the *same* nested `channel_breakdown` and
`key_themes` contents (for every breakdown, theme list, segment list and
validation result); in particular, on the flagged
`{"a": "+30%", "b": "-30%"}` patch the caller's original patch object is
mutated in place to the scaled `+24.0% / -24.0%` values. -/
theorem downscope_shallow_copy_mutates_original :
    (∀ (cb : List (String × CBVal)) (themes : List String) (segs : List Segment)
        (vr : ValidationResult),
      readCB (downscope_patch_heap (mkPatchHeap cb themes segs).1
          (mkPatchHeap cb themes segs).2 vr).2.2
        (mkPatchHeap cb themes segs).2 =
        readCB (downscope_patch_heap (mkPatchHeap cb themes segs).1
            (mkPatchHeap cb themes segs).2 vr).2.2
          (downscope_patch_heap (mkPatchHeap cb themes segs).1
            (mkPatchHeap cb themes segs).2 vr).1 ∧
      readThemes (downscope_patch_heap (mkPatchHeap cb themes segs).1
          (mkPatchHeap cb themes segs).2 vr).2.2
        (mkPatchHeap cb themes segs).2 =
        readThemes (downscope_patch_heap (mkPatchHeap cb themes segs).1
            (mkPatchHeap cb themes segs).2 vr).2.2
          (downscope_patch_heap (mkPatchHeap cb themes segs).1
            (mkPatchHeap cb themes segs).2 vr).1) ∧
      (readCB
          (downscope_patch_heap
            (mkPatchHeap [("a", CBVal.vstr "+30%"), ("b", CBVal.vstr "-30%")] [] []).1
            (mkPatchHeap [("a", CBVal.vstr "+30%"), ("b", CBVal.vstr "-30%")] [] []).2
            (validate_patch exBudgetPatch)).2.2
          (mkPatchHeap [("a", CBVal.vstr "+30%"), ("b", CBVal.vstr "-30%")] [] []).2 =
        [("a", CBVal.vstr "+24.0%"), ("b", CBVal.vstr "-24.0%")] ∧
      readCB (mkPatchHeap [("a", CBVal.vstr "+30%"), ("b", CBVal.vstr "-30%")] [] []).1
          (mkPatchHeap [("a", CBVal.vstr "+30%"), ("b", CBVal.vstr "-30%")] [] []).2 =
        [("a", CBVal.vstr "+30%"), ("b", CBVal.vstr "-30%")] ∧
      (downscope_patch_heap
          (mkPatchHeap [("a", CBVal.vstr "+30%"), ("b", CBVal.vstr "-30%")] [] []).1
          (mkPatchHeap [("a", CBVal.vstr "+30%"), ("b", CBVal.vstr "-30%")] [] []).2
          (validate_patch exBudgetPatch)).2.1 = true) := by
  constructor
  · intro cb themes segs vr
    by_cases hp : vr.passed = true
    · constructor <;> simp [downscope_patch_heap, hp]
    · by_cases hb : vr.budget_flags > 0 <;> by_cases hc : vr.creative_flags > 0 <;>
        by_cases hcb : cb = [] <;>
        by_cases ht : themes.length > segs.length * 3 <;>
        constructor <;>
        simp [downscope_patch_heap, hp, hb, hc, hcb, ht, mkPatchHeap, halloc, maxAddr,
          heapGet, heapSet, getFieldAddr, readCB, readThemes, readSegments, setField,
          setAssoc, List.lookup]
  · refine ⟨by decide, by decide, by decide⟩
